import Mathlib

/-!
# pelz: the key service client and the start-up of the service

A shallow embedding of `src/util/cmd_interface.c` (the word classifier
`check_arg` and the request formatters `msg_arg`, `msg_list`, `msg_cmd`), of
`src/pelz/main.c` (the command resolver and the dispatch of the resolved
command) and of `src/pelz-service/main.c` (options, start-up, serving loop and
shutdown of the service), followed by the properties established about them.

Conventions of the embedding.
* A C string is the Lean `String` of its bytes before the terminating NUL; a
  `char *` that may be `NULL` is an `Option String`.
* `argv` is the list of its `argc` words; `argv[argc]` is the `NULL` that ends
  the array.
* Calls into collaborators that are not part of these files (`getopt_long`,
  `mkfifo`, `seal`, `open_read_pipe`, `write_to_pipe`, `read_listener`,
  `remove_pipe`, the enclave calls, `pelz_service`) are recorded as effects;
  what they return is read from an environment record.
* `pelz_log` calls and the release of heap memory are not recorded.
* A `long` has 64 bits and an `int` 32 bits.
-/

namespace Pelz

/-! ## Word classification (`cmd_interface.c`) -/

/-- Modelled from the spec: the enumeration `CmdArgValue` is declared in
`cmd_interface.h`, which is not among the source files. The spec lists the
vocabulary seal, exit, keytable, pki, remove, list, load, cert, private, other
and empty; the enumerator names are those used by `check_arg` and `main`.
`EMPTY` is the enumerator of value 0: `main` fills `cmd_arg` with `EMPTY`
and leaves its classification loop at `cmd_arg[i] == 0`. -/
inductive CmdArgValue
  | EMPTY
  | SEAL
  | EX
  | KEYTABLE
  | PKI
  | REMOVE
  | LIST
  | LOAD
  | CERT
  | PRIVATE
  | OTHER
  deriving DecidableEq, Repr

/-- Integer value of an enumerator; only the fact that `EMPTY` is 0 is used. -/
def CmdArgValue.toNat : CmdArgValue → Nat
  | .EMPTY => 0
  | .SEAL => 1
  | .EX => 2
  | .KEYTABLE => 3
  | .PKI => 4
  | .REMOVE => 5
  | .LIST => 6
  | .LOAD => 7
  | .CERT => 8
  | .PRIVATE => 9
  | .OTHER => 10

/-- The bytes of a C string as they lie in memory: the content, then NUL. -/
def cstr (arg : String) : List Char := arg.data ++ [Char.ofNat 0]

/-- Length of a C string, `strlen(arg)`. -/
def strlen (arg : String) : Nat := arg.length

/-- The test `memcmp(arg, kw, n) == 0`: the first `n` bytes at `arg` equal the
first `n` bytes of the literal `kw`. When `arg` is shorter than `n` the
comparison is decided at or before the NUL of `arg`, which differs from the
byte of the keyword at that place, so the bytes after the NUL play no role and
the shorter list compares unequal. -/
def memcmp_zero (arg kw : String) (n : Nat) : Bool :=
  decide ((cstr arg).take n = kw.data.take n)

/-- Classifier `check_arg(char *arg)` of `cmd_interface.c`. -/
def check_arg : Option String → CmdArgValue
  | none => .EMPTY
  | some arg =>
    if memcmp_zero arg "seal" 4 && strlen arg == 4 then .SEAL
    else if memcmp_zero arg "exit" 4 && strlen arg == 4 then .EX
    else if memcmp_zero arg "keytable" 8 && strlen arg == 8 then .KEYTABLE
    else if memcmp_zero arg "pki" 3 && strlen arg == 3 then .PKI
    else if memcmp_zero arg "remove" 6 && strlen arg == 6 then .REMOVE
    else if memcmp_zero arg "list" 4 && strlen arg == 4 then .LIST
    else if memcmp_zero arg "load" 4 && strlen arg == 4 then .LOAD
    else if memcmp_zero arg "cert" 4 && strlen arg == 4 then .CERT
    else if memcmp_zero arg "private" 7 && strlen arg == 7 then .PRIVATE
    else .OTHER

/-- The nine keywords with their tokens, in the order `check_arg` tests them. -/
def keywords : List (String × CmdArgValue) :=
  [("seal", .SEAL), ("exit", .EX), ("keytable", .KEYTABLE), ("pki", .PKI),
   ("remove", .REMOVE), ("list", .LIST), ("load", .LOAD), ("cert", .CERT),
   ("private", .PRIVATE)]

/-! ## Request formatting and the transport exchange (`cmd_interface.c`) -/

/-- The first `n` characters of a string: what `%.*s` with precision `n` writes
of a non-null string. -/
def str_take (s : String) (n : Nat) : String := ⟨s.data.take n⟩

/-- Conversion `%.*s` of `sprintf` with precision `prec`. For a null pointer
the C library in use (glibc) writes nothing when the precision is below 6 and
the text `(null)`, cut to the precision, otherwise. -/
def fmt_s (prec : Nat) : Option String → String
  | some s => str_take s prec
  | none => if 6 ≤ prec then str_take "(null)" prec else ""

/-- The text `sprintf(msg, "pelz %d %.*s %.*s", cmd, pipe_len, pipe, arg_len, arg)`
leaves in `msg` (function `msg_arg`). -/
def msg_arg_fmt (pipe : String) (pipe_len : Nat) (cmd : Nat) (arg : Option String)
    (arg_len : Nat) : String :=
  "pelz " ++ toString cmd ++ " " ++ fmt_s pipe_len (some pipe) ++ " " ++ fmt_s arg_len arg

/-- The text `sprintf(msg, "pelz %d %.*s", cmd, pipe_len, pipe)` leaves in `msg`
(function `msg_list`). -/
def msg_list_fmt (pipe : String) (pipe_len : Nat) (cmd : Nat) : String :=
  "pelz " ++ toString cmd ++ " " ++ fmt_s pipe_len (some pipe)

/-- Observable actions of the client: blocks printed on stdout and calls into
collaborators. -/
inductive Effect
  /-- Call `usage(argv[0])`: the general usage block. -/
  | usage (prog : Option String)
  /-- Call `seal_usage()`. -/
  | seal_usage
  /-- Call `keytable_usage()`. -/
  | keytable_usage
  /-- Call `pki_usage()`. -/
  | pki_usage
  /-- Call `mkfifo(name, mode)`. -/
  | mkfifo (name : String) (mode : Nat)
  /-- Call `seal(path, &outPath, outPath_size, tpm)`. -/
  | seal (path : Option String) (outPath : Option String) (outPath_size : Nat) (tpm : Bool)
  /-- Line `Successfully sealed contents to file: <outPath>` on stdout. -/
  | sealed_msg (outPath : Option String)
  /-- Call `open_read_pipe(pipe)`. -/
  | open_read_pipe (pipe : String)
  /-- Call `perror("open")`. -/
  | perror_open
  /-- Call `write_to_pipe(pipe, msg)`. -/
  | write_to_pipe (pipe : String) (msg : String)
  /-- Call `read_listener(fd)`. -/
  | read_listener (fd : Int)
  /-- Call `remove_pipe(name)`. -/
  | remove_pipe (name : String)
  deriving DecidableEq, Repr

/-- What the run of the client meets outside its own code: the two pipe path
macros of `pelz_io.h` (not among the source files, so left open), the process
identifier, and the value each collaborator call returns. -/
structure Env where
  /-- Macro `PELZSERVICE`: path of the request pipe of the service. -/
  PELZSERVICE : String
  /-- Macro `PELZINTERFACE`: leading part of the reply pipe path. -/
  PELZINTERFACE : String
  /-- Value of `getpid()`. -/
  pid : Nat
  /-- Value of `mkfifo(...)`. -/
  mkfifo_ret : Int
  /-- Value of `seal(...)`. -/
  seal_ret : Int
  /-- Content of `outPath` when `seal` returns. -/
  seal_outPath : Option String
  /-- Value of `open_read_pipe(...)`: a descriptor, or -1. -/
  open_read_pipe_ret : Int
  /-- Value of `write_to_pipe(...)`. -/
  write_to_pipe_ret : Int
  /-- Value of `read_listener(...)`. -/
  read_listener_ret : Int

/-- Function `msg_cmd(pipe, msg)`: its return value and the calls it makes. -/
def msg_cmd (env : Env) (pipe msg : String) : Int × List Effect :=
  let fd := env.open_read_pipe_ret
  if fd = -1 then
    (1, [.open_read_pipe pipe, .perror_open])
  else
    let ret := env.write_to_pipe_ret
    if ret ≠ 0 then
      (ret, [.open_read_pipe pipe, .write_to_pipe env.PELZSERVICE msg])
    else
      (env.read_listener_ret,
        [.open_read_pipe pipe, .write_to_pipe env.PELZSERVICE msg, .read_listener fd])

/-- Function `msg_arg(pipe, pipe_len, cmd, arg, arg_len)`. -/
def msg_arg (env : Env) (pipe : String) (pipe_len : Nat) (cmd : Nat) (arg : Option String)
    (arg_len : Nat) : Int × List Effect :=
  msg_cmd env pipe (msg_arg_fmt pipe pipe_len cmd arg arg_len)

/-- Function `msg_list(pipe, pipe_len, cmd)`. -/
def msg_list (env : Env) (pipe : String) (pipe_len : Nat) (cmd : Nat) : Int × List Effect :=
  msg_cmd env pipe (msg_list_fmt pipe pipe_len cmd)

/-! ## The client `main` (`pelz/main.c`) -/

/-- Mode `MODE` of the reply pipe, octal 0600. -/
def MODE : Nat := 0o600

/-- What one call of `getopt_long(argc, argv, "hdato:", longopts, ..)` returns
before it returns -1: one of the five option letters (`o` with its `optarg`), or
any other value (such as `?` for a rejected option). -/
inductive GetOpt
  | h
  | d
  | t
  | a
  | o (optarg : String)
  | unknown
  deriving DecidableEq, Repr

/-- The local variables of `main` the option loop writes. -/
structure OptState where
  arg_index : Nat
  all : Bool
  tpm : Bool
  out : Bool
  outPath : Option String
  outPath_size : Nat
  deriving DecidableEq, Repr

/-- Their initial values. -/
def OptState.init : OptState :=
  ⟨0, false, false, false, none, 0⟩

/-- A run of `main`: the value it returns (`none` when the run is stopped by
`strlen` of a null pointer) and the effects in order. -/
structure Run where
  status : Option Int
  trace : List Effect
  deriving DecidableEq, Repr

/-- Body of the `switch (options)` for one returned option: either the new
values of the locals, or the run `main` ends with. -/
def option_step (prog : Option String) (st : OptState) : GetOpt → Except Run OptState
  | .h => .error ⟨some 0, [.usage prog]⟩
  | .d => .ok { st with arg_index := st.arg_index + 1 }
  | .t => .ok { st with tpm := true, arg_index := st.arg_index + 1 }
  | .a => .ok { st with all := true, arg_index := st.arg_index + 1 }
  | .o optarg =>
    let outPath_size := strlen optarg + 1
    .ok { st with
      out := true
      outPath_size := outPath_size
      outPath := if outPath_size > 1 then some optarg else st.outPath
      arg_index := st.arg_index + 2 }
  | .unknown => .error ⟨some 1, []⟩

/-- The `while` loop over the options `getopt_long` returns. -/
def option_loop (prog : Option String) : List GetOpt → OptState → Except Run OptState
  | [], st => .ok st
  | o :: os, st =>
    match option_step prog st o with
    | .ok st1 => option_loop prog os st1
    | .error r => .error r

/-- Element `cmd_arg[i]` of the token array. -/
def tok (cmd_arg : List CmdArgValue) (i : Nat) : CmdArgValue := cmd_arg.getD i .EMPTY

/-- The loop `for (i = 0; i < 5; i++)` that classifies the words after the
options, with `remaining = 5 - i` iterations left; it is left at the first
token of value 0. -/
def classify_loop (argv : Nat → Option String) (arg_index : Nat) :
    Nat → Nat → List CmdArgValue → List CmdArgValue
  | 0, _, cmd_arg => cmd_arg
  | remaining + 1, i, cmd_arg =>
    let cmd_arg1 := cmd_arg.set i (check_arg (argv (arg_index + 1 + i)))
    if (tok cmd_arg1 i).toNat = 0 then cmd_arg1
    else classify_loop argv arg_index remaining (i + 1) cmd_arg1

/-- The token array `cmd_arg` after the classification loop. -/
def classify (argv : Nat → Option String) (arg_index : Nat) : List CmdArgValue :=
  classify_loop argv arg_index 5 0 [.EMPTY, .EMPTY, .EMPTY, .EMPTY, .EMPTY]

/-- Which usage block a failed resolution prints. -/
inductive UsageKind
  | general
  | seal
  | keytable
  | pki
  deriving DecidableEq, Repr

/-- The print call of a usage block. -/
def UsageKind.effect (prog : Option String) : UsageKind → Effect
  | .general => .usage prog
  | .seal => .seal_usage
  | .keytable => .keytable_usage
  | .pki => .pki_usage

/-- The resolver: the check of the output option and the `switch (cmd_arg[0])`
of `main`. It yields the value assigned to `cmd`, or the usage block printed
before `return 1`. -/
def resolve (cmd_arg : List CmdArgValue) (st : OptState) : Except UsageKind Nat :=
  if st.out = true ∧ tok cmd_arg 0 ≠ .SEAL then .error .general
  else
    match tok cmd_arg 0 with
    | .EMPTY => .error .general
    | .OTHER => .error .general
    | .SEAL =>
      if tok cmd_arg 1 = .OTHER ∧ tok cmd_arg 2 = .EMPTY then .ok 0
      else .error .seal
    | .EX =>
      if tok cmd_arg 1 = .EMPTY then .ok 1
      else .error .general
    | .KEYTABLE =>
      if tok cmd_arg 1 = .REMOVE then
        if st.all = true then .ok 3
        else if tok cmd_arg 2 = .OTHER ∧ tok cmd_arg 3 = .EMPTY then .ok 2
        else .error .keytable
      else if tok cmd_arg 1 = .LIST ∧ tok cmd_arg 2 = .EMPTY then .ok 4
      else .error .keytable
    | .PKI =>
      if tok cmd_arg 1 = .LOAD then
        if tok cmd_arg 2 = .CERT ∧ tok cmd_arg 3 = .OTHER ∧ tok cmd_arg 4 = .EMPTY then .ok 5
        else if tok cmd_arg 2 = .PRIVATE ∧ tok cmd_arg 3 = .OTHER ∧ tok cmd_arg 4 = .EMPTY then
          .ok 6
        else .error .pki
      else if tok cmd_arg 1 = .CERT ∧ tok cmd_arg 2 = .LIST ∧ tok cmd_arg 3 = .EMPTY then .ok 7
      else if tok cmd_arg 1 = .REMOVE then
        if st.all = true then .ok 9
        else if tok cmd_arg 2 = .PRIVATE ∧ tok cmd_arg 3 = .EMPTY then .ok 10
        else if tok cmd_arg 2 = .OTHER ∧ tok cmd_arg 3 = .EMPTY then .ok 8
        else .error .pki
      else .error .pki
    | _ => .error .general

/-- The name of the reply pipe, `sprintf(fifo_name, "%s%d", PELZINTERFACE, pid_t)`. -/
def fifo_name (env : Env) : String := env.PELZINTERFACE ++ toString env.pid

/-- The call a branch of `switch (cmd)` makes, with its actual arguments. -/
inductive Request
  /-- Call `seal(path, &outPath, outPath_size, tpm)`. -/
  | seal (path : Option String)
  /-- Call `msg_arg(fifo_name, fifo_name_len, cmd, arg, arg_len)`. -/
  | arg (cmd : Nat) (arg : Option String) (arg_len : Nat)
  /-- Call `msg_list(fifo_name, fifo_name_len, cmd)`. -/
  | list (cmd : Nat)
  /-- The `default` branch. -/
  | default
  /-- The actual argument `strlen(argv[..])` is taken of a null pointer. -/
  | fault
  deriving DecidableEq, Repr

/-- A request `msg_arg(.., cmd, argv[k], (int) strlen(argv[k]))`. -/
def arg_request (cmd : Nat) : Option String → Request
  | some w => .arg cmd (some w) (strlen w)
  | none => .fault

/-- The branch of `switch (cmd)` taken and the arguments it passes. -/
def request_of (argv : Nat → Option String) (arg_index : Nat) (cmd : Nat) : Request :=
  match cmd with
  | 0 => .seal (argv (arg_index + 2))
  | 1 => .arg cmd none 0
  | 2 => arg_request cmd (argv (arg_index + 3))
  | 3 => .arg cmd none 0
  | 4 => .list cmd
  | 5 => arg_request cmd (argv (arg_index + 4))
  | 6 => arg_request cmd (argv (arg_index + 4))
  | 7 => .list cmd
  | 8 => arg_request cmd (argv (arg_index + 3))
  | 9 => .arg cmd none 0
  | 10 => .arg cmd none 0
  | _ => .default

/-- The request line a request writes to the service, if it writes one. -/
def request_line (fifo : String) : Request → Option String
  | .arg cmd arg arg_len => some (msg_arg_fmt fifo (strlen fifo) cmd arg arg_len)
  | .list cmd => some (msg_list_fmt fifo (strlen fifo) cmd)
  | _ => none

/-- Execution of the branch of `switch (cmd)` up to the return of `main`; the
values `msg_arg` and `msg_list` return are not looked at by `main`. -/
def perform (prog : Option String) (st : OptState) (env : Env) (fifo : String) :
    Request → Run
  | .seal path =>
    if env.seal_ret ≠ 0 then
      ⟨some 1, [.seal path st.outPath st.outPath_size st.tpm, .remove_pipe fifo]⟩
    else
      ⟨some 0, [.seal path st.outPath st.outPath_size st.tpm, .sealed_msg env.seal_outPath,
        .remove_pipe fifo]⟩
  | .arg cmd arg arg_len =>
    ⟨some 0, (msg_arg env fifo (strlen fifo) cmd arg arg_len).2 ++ [.remove_pipe fifo]⟩
  | .list cmd =>
    ⟨some 0, (msg_list env fifo (strlen fifo) cmd).2 ++ [.remove_pipe fifo]⟩
  | .default => ⟨some 1, [.usage prog, .remove_pipe fifo]⟩
  | .fault => ⟨none, []⟩

/-- Lines 297 to 395 of `main`: creation of the reply pipe and `switch (cmd)`. -/
def dispatch (argv : Nat → Option String) (st : OptState) (env : Env) (cmd : Nat) : Run :=
  let fifo := fifo_name env
  let r := perform (argv 0) st env fifo (request_of argv st.arg_index cmd)
  ⟨r.status, .mkfifo fifo MODE :: r.trace⟩

/-- Function `main(argc, argv)` of the client. `argv` is the pointer array as
the program reads it once `getopt_long` is done with it: `argv i` is the word at
index `i`, or `none` for a null pointer; `opts` is what the successive calls of
`getopt_long` return. -/
def main (argc : Nat) (argv : Nat → Option String) (opts : List GetOpt) (env : Env) : Run :=
  if argc = 1 then ⟨some 0, [.usage (argv 0)]⟩
  else
    match option_loop (argv 0) opts OptState.init with
    | .error r => r
    | .ok st =>
      match resolve (classify argv st.arg_index) st with
      | .error u => ⟨some 1, [u.effect (argv 0)]⟩
      | .ok cmd => dispatch argv st env cmd

/-- The pointer array of a command line given as the list of its words: the
words, then null. -/
def argv_of (words : List String) : Nat → Option String := fun i => words.get? i

/-- Effects that are blocks printed by one of the four usage functions. -/
def Effect.is_usage : Effect → Bool
  | .usage _ => true
  | .seal_usage => true
  | .keytable_usage => true
  | .pki_usage => true
  | _ => false

/-- Effects that act on the reply pipe, the service pipe or the sealing
collaborator. -/
def Effect.is_action : Effect → Bool
  | .mkfifo _ _ => true
  | .seal _ _ _ _ => true
  | .open_read_pipe _ => true
  | .write_to_pipe _ _ => true
  | .read_listener _ => true
  | .remove_pipe _ => true
  | _ => false

/-- Effects that create or delete the node of the reply pipe. -/
def Effect.is_fifo_call : Effect → Bool
  | .mkfifo _ _ => true
  | .remove_pipe _ => true
  | _ => false

/-- An environment for the examples: the service is not reachable (the
write to its pipe fails with 1). -/
def env_down : Env :=
  ⟨"/tmp/pelzService", "/tmp/pelzInterface", 4242, 0, 0, none, 3, 1, 0⟩

/-- An environment for the examples: every collaborator call succeeds. -/
def env_up : Env :=
  ⟨"/tmp/pelzService", "/tmp/pelzInterface", 4242, 0, 0, some "f.nkl", 3, 0, 0⟩

/-! ## The option scan of the C library, for the option table of the client -/

/-- The long option names of `longopts` that take no argument, with the value
`getopt_long` returns for each; the fifth name, `output`, takes an argument and
is handled in `scan_long`. -/
def longopts : List (String × GetOpt) :=
  [("help", .h), ("debug", .d), ("tpm", .t), ("all", .a)]

/-- Library function `getopt_long`, one word of short options (the letters after
the dash) for the option string `hdato:`. Each letter is one returned option.
The letter `o` takes the rest of the word as `optarg`, or the next word of
`argv` when nothing is left of the word, and is rejected when there is no next
word. The result is the returned options and whether the next word was used. -/
def scan_short : List Char → Option String → List GetOpt × Bool
  | [], _ => ([], false)
  | c :: rest, next =>
    if c = 'o' then
      match rest, next with
      | [], some w => ([.o w], true)
      | [], none => ([.unknown], false)
      | _ :: _, _ => ([.o ⟨rest⟩], false)
    else
      let r := scan_short rest next
      let opt : GetOpt :=
        if c = 'h' then .h else if c = 'd' then .d else if c = 'a' then .a
        else if c = 't' then .t else .unknown
      (opt :: r.1, r.2)

/-- Library function `getopt_long`, one long option word (the characters after
the two dashes). The name runs up to an `=` sign, if there is one, and stands
for the long option it is a leading part of (the five names start with different
letters, so a leading part names one option at most). The four options without
argument are rejected when an `=` follows; `output` takes what follows the `=`,
or else the next word of `argv`, and is rejected when there is neither. -/
def scan_long (word : List Char) (next : Option String) : GetOpt × Bool :=
  let name := word.takeWhile (· ≠ '=')
  let rest := word.dropWhile (· ≠ '=')
  if name = [] then (.unknown, false)
  else
    match longopts.find? (fun p => p.1.data.take name.length = name) with
    | some p => if rest = [] then (p.2, false) else (.unknown, false)
    | none =>
      if "output".data.take name.length = name then
        match rest, next with
        | _ :: value, _ => (.o ⟨value⟩, false)
        | [], some w => (.o w, true)
        | [], none => (.unknown, false)
      else (.unknown, false)

/-- Library function `getopt_long` over the words after the program name, as
the GNU C library scans them (option words may stand anywhere and are moved in
front of the other words; the word `--` ends the scan). The flag tells that the
word at hand is the argument of the option before it. The result is the
sequence of values returned before -1 and the number of words used up by
options, so that `optind` ends as that number plus one. -/
def getopt_scan : List String → Bool → List GetOpt × Nat
  | [], _ => ([], 0)
  | w :: ws, is_optarg =>
    if is_optarg then
      let r := getopt_scan ws false
      (r.1, r.2 + 1)
    else if w = "--" then ([], 1)
    else
      match w.data with
      | '-' :: '-' :: name =>
        let o := scan_long name ws.head?
        let r := getopt_scan ws o.2
        (o.1 :: r.1, r.2 + 1)
      | '-' :: c :: rest =>
        let o := scan_short (c :: rest) ws.head?
        let r := getopt_scan ws o.2
        (o.1 ++ r.1, r.2 + 1)
      | _ => getopt_scan ws false

/-! ## The recognised command-line shapes -/

/-- The token array the usage text gives for an opcode: seal PATH; exit;
keytable remove ID; keytable remove; keytable list; pki load cert PATH; pki load
private PATH; pki cert list; pki remove CN; pki remove; pki remove private. -/
def shape : Nat → List CmdArgValue
  | 0 => [.SEAL, .OTHER, .EMPTY, .EMPTY, .EMPTY]
  | 1 => [.EX, .EMPTY, .EMPTY, .EMPTY, .EMPTY]
  | 2 => [.KEYTABLE, .REMOVE, .OTHER, .EMPTY, .EMPTY]
  | 3 => [.KEYTABLE, .REMOVE, .EMPTY, .EMPTY, .EMPTY]
  | 4 => [.KEYTABLE, .LIST, .EMPTY, .EMPTY, .EMPTY]
  | 5 => [.PKI, .LOAD, .CERT, .OTHER, .EMPTY]
  | 6 => [.PKI, .LOAD, .PRIVATE, .OTHER, .EMPTY]
  | 7 => [.PKI, .CERT, .LIST, .EMPTY, .EMPTY]
  | 8 => [.PKI, .REMOVE, .OTHER, .EMPTY, .EMPTY]
  | 9 => [.PKI, .REMOVE, .EMPTY, .EMPTY, .EMPTY]
  | 10 => [.PKI, .REMOVE, .PRIVATE, .EMPTY, .EMPTY]
  | _ => []

/-- The size `calloc` is asked for in `msg_arg`. -/
def msg_arg_size (pipe_len arg_len : Nat) : Nat := 10 + pipe_len + arg_len

/-- The size `calloc` is asked for in `msg_list`. -/
def msg_list_size (pipe_len : Nat) : Nat := 10 + pipe_len

/-- Bytes a C string takes in its buffer: the characters and the NUL. -/
def bytes_needed (s : String) : Nat := strlen s + 1

/-! ## Integer conversions of the C library -/

/-- Library predicate `isspace` in the C locale. -/
def isspace (c : Char) : Bool := c.toNat = 32 || (9 ≤ c.toNat && c.toNat ≤ 13)

/-- Library predicate `isdigit`. -/
def isdigit (c : Char) : Bool := 48 ≤ c.toNat && c.toNat ≤ 57

/-- Value of a run of decimal digits. -/
def digits_value (l : List Char) : Nat :=
  l.foldl (fun acc c => 10 * acc + (c.toNat - 48)) 0

/-- Largest `long` of the platform of the service (64 bits). -/
def LONG_MAX : Int := 2 ^ 63 - 1

/-- Smallest `long`. -/
def LONG_MIN : Int := -(2 ^ 63)

/-- Library function `atol(nptr)`, that is `strtol(nptr, NULL, 10)`: white space
is skipped, a sign is read, then the longest run of digits; the value is kept
within the range of `long`. -/
def atol (nptr : String) : Int :=
  let l := nptr.data.dropWhile isspace
  let neg : Bool := l.head? = some '-'
  let l1 := if l.head? = some '-' ∨ l.head? = some '+' then l.tail else l
  let v : Int := (digits_value (l1.takeWhile isdigit) : Nat)
  if neg then max LONG_MIN (-v) else min LONG_MAX v

/-- The conversion `(int) mr` of a `long` to a 32 bit `int`: the value modulo
2^32, taken in the range of `int`. -/
def int_of_long (mr : Int) : Int := (mr + 2 ^ 31) % 2 ^ 32 - 2 ^ 31

/-! ## The service `main` (`pelz-service/main.c`) -/

namespace Service

/-- The two tables `main` destroys; `SERVER` and `KEY` are enumerators of
`common_table.h`. -/
inductive TableType
  | SERVER
  | KEY
  deriving DecidableEq, Repr

/-- Observable actions of the service: the usage block and the calls into the
enclave and into the serving loop. -/
inductive Effect
  /-- Call `usage(argv[0])`. -/
  | usage (prog : Option String)
  /-- Call `sgx_create_enclave(ENCLAVE_PATH, 0, NULL, NULL, &eid, NULL)`. -/
  | sgx_create_enclave
  /-- Call `kmyth_unsealed_data_table_initialize(eid, &ret)`. -/
  | kmyth_unsealed_data_table_init
  /-- Call `private_pkey_init(eid, &status)`. -/
  | private_pkey_init
  /-- Call `pelz_service(max_requests)`. -/
  | pelz_service (max_requests : Int)
  /-- Call `private_pkey_free(eid, &status)`. -/
  | private_pkey_free
  /-- Call `kmyth_unsealed_data_table_cleanup(eid, &ret)`. -/
  | kmyth_unsealed_data_table_cleanup
  /-- Call `table_destroy(eid, &status, type)`. -/
  | table_destroy (type : TableType)
  /-- Call `sgx_destroy_enclave(eid)`. -/
  | sgx_destroy_enclave
  deriving DecidableEq, Repr

/-- What the collaborators of the service answer. `main` reads two of the
answers only: `ret` after the table initialisation and `status` after
`private_pkey_init`. -/
structure Env where
  /-- Status of `sgx_create_enclave` is `SGX_SUCCESS`. -/
  create_ok : Bool
  /-- Content of `ret` after `kmyth_unsealed_data_table_initialize`. -/
  init_ret : Int
  /-- Test `status == OK` after `private_pkey_init`. -/
  pkey_init_ok : Bool
  /-- Test `status == OK` after `private_pkey_free`. -/
  pkey_free_ok : Bool
  /-- Content of `ret` after `kmyth_unsealed_data_table_cleanup`. -/
  cleanup_ret : Int
  /-- Test `status == OK` after `table_destroy(.., SERVER)`. -/
  server_destroy_ok : Bool
  /-- Test `status == OK` after `table_destroy(.., KEY)`. -/
  key_destroy_ok : Bool
  /-- Status of `sgx_destroy_enclave` is `SGX_SUCCESS`. -/
  destroy_ok : Bool

/-- A run of the service: the value `main` returns and its effects in order. -/
structure Run where
  status : Int
  trace : List Effect
  deriving DecidableEq, Repr

/-- What one call of `getopt_long(argc, argv, "m:hv", longopts, ..)` returns. -/
inductive GetOpt
  | h
  | m (optarg : Option String)
  | v
  | unknown
  deriving DecidableEq, Repr

/-- Body of `switch (options)`: the new value of `max_requests`, or the run
`main` ends with. -/
def option_step (prog : Option String) (max_requests : Int) : GetOpt → Except Run Int
  | .h => .error ⟨0, [.usage prog]⟩
  | .m optarg =>
    match optarg with
    | some s =>
      let mr := atol s
      if mr > 0 then .ok (int_of_long mr) else .error ⟨1, []⟩
    | none => .error ⟨1, []⟩
  | .v => .ok max_requests
  | .unknown => .error ⟨1, []⟩

/-- The `while` loop over the options. -/
def option_loop (prog : Option String) : List GetOpt → Int → Except Run Int
  | [], max_requests => .ok max_requests
  | o :: os, max_requests =>
    match option_step prog max_requests o with
    | .ok m1 => option_loop prog os m1
    | .error r => .error r

/-- Lines 88 to 127 of `main`: start-up, the serving loop and the shutdown. -/
def lifecycle (max_requests : Int) (env : Env) : Run :=
  if env.init_ret ≠ 0 then
    ⟨1, [.sgx_create_enclave, .kmyth_unsealed_data_table_init, .sgx_destroy_enclave]⟩
  else if env.pkey_init_ok = false then
    ⟨1, [.sgx_create_enclave, .kmyth_unsealed_data_table_init, .private_pkey_init,
      .kmyth_unsealed_data_table_cleanup, .sgx_destroy_enclave]⟩
  else
    ⟨0, [.sgx_create_enclave, .kmyth_unsealed_data_table_init, .private_pkey_init,
      .pelz_service max_requests,
      .private_pkey_free, .kmyth_unsealed_data_table_cleanup, .table_destroy .SERVER,
      .table_destroy .KEY, .sgx_destroy_enclave]⟩

/-- Function `main(argc, argv)` of the service; `optind` is the index
`getopt_long` leaves and `opts` the values it returned. -/
def main (argc optind : Nat) (prog : Option String) (opts : List GetOpt) (env : Env) : Run :=
  match option_loop prog opts 100 with
  | .error r => r
  | .ok max_requests =>
    if optind < argc then ⟨1, [.usage prog]⟩
    else lifecycle max_requests env

/-- Effects that acquire a resource at start-up. -/
def Effect.is_acquire : Effect → Bool
  | .sgx_create_enclave => true
  | .kmyth_unsealed_data_table_init => true
  | .private_pkey_init => true
  | _ => false

/-- An environment in which every call succeeds. -/
def env_ok : Env := ⟨true, 0, true, true, 0, true, true, true⟩

/-- An environment in which the enclave cannot be created and the two
variables `main` reads afterwards hold 0 and `OK`. -/
def env_no_enclave : Env := ⟨false, 0, true, true, 0, true, true, true⟩

end Service

/-! ## Lemmas on the classifier -/

theorem kw_test (arg kw : String) (n : Nat) (hn : kw.length = n) :
    (memcmp_zero arg kw n && strlen arg == n) = true ↔ arg = kw := by
  simp only [memcmp_zero, strlen, cstr, Bool.and_eq_true, decide_eq_true_eq, beq_iff_eq]
  have hk : kw.data.length = n := hn
  constructor
  · rintro ⟨h1, h2⟩
    have ha : arg.data.length = n := h2
    rw [List.take_left' ha, List.take_of_length_le (le_of_eq hk)] at h1
    exact String.ext h1
  · rintro rfl
    exact ⟨by rw [List.take_left' hk, List.take_of_length_le (le_of_eq hk)], hn⟩

theorem check_arg_some (w : String) :
    check_arg (some w) =
      if w = "seal" then .SEAL
      else if w = "exit" then .EX
      else if w = "keytable" then .KEYTABLE
      else if w = "pki" then .PKI
      else if w = "remove" then .REMOVE
      else if w = "list" then .LIST
      else if w = "load" then .LOAD
      else if w = "cert" then .CERT
      else if w = "private" then .PRIVATE
      else .OTHER := by
  simp only [check_arg, kw_test w "seal" 4 rfl, kw_test w "exit" 4 rfl,
    kw_test w "keytable" 8 rfl, kw_test w "pki" 3 rfl, kw_test w "remove" 6 rfl,
    kw_test w "list" 4 rfl, kw_test w "load" 4 rfl, kw_test w "cert" 4 rfl,
    kw_test w "private" 7 rfl]


theorem check_arg_eq_empty (x : Option String) : check_arg x = .EMPTY ↔ x = none := by
  cases x with
  | none => simp [check_arg]
  | some w =>
    rw [check_arg_some]
    split_ifs <;> simp

theorem toNat_eq_zero (v : CmdArgValue) : v.toNat = 0 ↔ v = .EMPTY := by
  cases v <;> simp [CmdArgValue.toNat]

/-! ## Lemmas on the classification loop -/

/-- The token array in closed form: the classes of the words up to the first
null pointer, `EMPTY` from there on. -/
theorem classify_eq (argv : Nat → Option String) (k : Nat) :
    classify argv k =
      if check_arg (argv (k + 1 + 0)) = .EMPTY then [.EMPTY, .EMPTY, .EMPTY, .EMPTY, .EMPTY]
      else if check_arg (argv (k + 1 + 1)) = .EMPTY then
        [check_arg (argv (k + 1 + 0)), .EMPTY, .EMPTY, .EMPTY, .EMPTY]
      else if check_arg (argv (k + 1 + 2)) = .EMPTY then
        [check_arg (argv (k + 1 + 0)), check_arg (argv (k + 1 + 1)), .EMPTY, .EMPTY, .EMPTY]
      else if check_arg (argv (k + 1 + 3)) = .EMPTY then
        [check_arg (argv (k + 1 + 0)), check_arg (argv (k + 1 + 1)),
          check_arg (argv (k + 1 + 2)), .EMPTY, .EMPTY]
      else
        [check_arg (argv (k + 1 + 0)), check_arg (argv (k + 1 + 1)),
          check_arg (argv (k + 1 + 2)), check_arg (argv (k + 1 + 3)),
          check_arg (argv (k + 1 + 4))] := by
  simp only [classify, classify_loop, tok, List.set, List.getD_cons_zero, List.getD_cons_succ,
    toNat_eq_zero]
  split_ifs <;> simp_all

/-- A token of the array that is not `EMPTY` is the class of the word at its
position. -/
theorem classify_tok (argv : Nat → Option String) (k i : Nat) (hi : i < 5)
    (h : tok (classify argv k) i ≠ .EMPTY) :
    tok (classify argv k) i = check_arg (argv (k + 1 + i)) := by
  rw [classify_eq] at h ⊢
  interval_cases i <;> split_ifs at h ⊢ <;> simp_all [tok]

/-- A token `OTHER` of the array stands for a word that is present. -/
theorem classify_other (argv : Nat → Option String) (k i : Nat) (hi : i < 5)
    (h : tok (classify argv k) i = .OTHER) :
    ∃ w, argv (k + 1 + i) = some w := by
  have h1 := classify_tok argv k i hi (by rw [h]; decide)
  rw [h] at h1
  cases hw : argv (k + 1 + i) with
  | none => rw [hw] at h1; simp [check_arg] at h1
  | some w => exact ⟨w, rfl⟩

/-! ## Lemmas on the resolver: one per family -/

theorem and_of_imp {P Q : Prop} (hp : P) (h : P → Q) : P ∧ Q := ⟨hp, h hp⟩

theorem resolve_out (cmd_arg : List CmdArgValue) (st : OptState)
    (hout : st.out = true) (h0 : tok cmd_arg 0 ≠ .SEAL) :
    resolve cmd_arg st = .error .general := by
  simp [resolve, hout, h0]

theorem resolve_seal (cmd_arg : List CmdArgValue) (st : OptState)
    (h0 : tok cmd_arg 0 = .SEAL) :
    resolve cmd_arg st =
      if tok cmd_arg 1 = .OTHER ∧ tok cmd_arg 2 = .EMPTY then .ok 0 else .error .seal := by
  simp only [resolve, h0]
  simp

theorem resolve_exit (cmd_arg : List CmdArgValue) (st : OptState)
    (h0 : tok cmd_arg 0 = .EX) (hout : st.out = false) :
    resolve cmd_arg st = if tok cmd_arg 1 = .EMPTY then .ok 1 else .error .general := by
  simp only [resolve, h0, hout]
  simp

theorem resolve_keytable (cmd_arg : List CmdArgValue) (st : OptState)
    (h0 : tok cmd_arg 0 = .KEYTABLE) (hout : st.out = false) :
    resolve cmd_arg st =
      if tok cmd_arg 1 = .REMOVE then
        if st.all = true then .ok 3
        else if tok cmd_arg 2 = .OTHER ∧ tok cmd_arg 3 = .EMPTY then .ok 2
        else .error .keytable
      else if tok cmd_arg 1 = .LIST ∧ tok cmd_arg 2 = .EMPTY then .ok 4
      else .error .keytable := by
  simp only [resolve, h0, hout]
  simp

theorem resolve_pki (cmd_arg : List CmdArgValue) (st : OptState)
    (h0 : tok cmd_arg 0 = .PKI) (hout : st.out = false) :
    resolve cmd_arg st =
      if tok cmd_arg 1 = .LOAD then
        if tok cmd_arg 2 = .CERT ∧ tok cmd_arg 3 = .OTHER ∧ tok cmd_arg 4 = .EMPTY then .ok 5
        else if tok cmd_arg 2 = .PRIVATE ∧ tok cmd_arg 3 = .OTHER ∧ tok cmd_arg 4 = .EMPTY then
          .ok 6
        else .error .pki
      else if tok cmd_arg 1 = .CERT ∧ tok cmd_arg 2 = .LIST ∧ tok cmd_arg 3 = .EMPTY then .ok 7
      else if tok cmd_arg 1 = .REMOVE then
        if st.all = true then .ok 9
        else if tok cmd_arg 2 = .PRIVATE ∧ tok cmd_arg 3 = .EMPTY then .ok 10
        else if tok cmd_arg 2 = .OTHER ∧ tok cmd_arg 3 = .EMPTY then .ok 8
        else .error .pki
      else .error .pki := by
  simp only [resolve, h0, hout]
  simp

theorem resolve_rest (cmd_arg : List CmdArgValue) (st : OptState)
    (hs : tok cmd_arg 0 ≠ .SEAL) (he : tok cmd_arg 0 ≠ .EX)
    (hk : tok cmd_arg 0 ≠ .KEYTABLE) (hp : tok cmd_arg 0 ≠ .PKI) :
    resolve cmd_arg st = .error .general := by
  cases h : tok cmd_arg 0 <;>
    first
      | exact absurd h hs
      | exact absurd h he
      | exact absurd h hk
      | exact absurd h hp
      | simp [resolve, h]

/-- Where an opcode can come from: the family of `tokens[0]` fixes its range,
and only `seal` resolves under the output option. -/
theorem resolve_ok_family (cmd_arg : List CmdArgValue) (st : OptState) (c : Nat)
    (h : resolve cmd_arg st = .ok c) :
    (tok cmd_arg 0 = .SEAL ∧ c = 0) ∨
    (tok cmd_arg 0 = .EX ∧ st.out = false ∧ c = 1) ∨
    (tok cmd_arg 0 = .KEYTABLE ∧ st.out = false ∧ (c = 2 ∨ c = 3 ∨ c = 4)) ∨
    (tok cmd_arg 0 = .PKI ∧ st.out = false ∧
      (c = 5 ∨ c = 6 ∨ c = 7 ∨ c = 8 ∨ c = 9 ∨ c = 10)) := by
  by_cases hs : tok cmd_arg 0 = .SEAL
  · rw [resolve_seal _ _ hs] at h
    split_ifs at h
    left; exact ⟨hs, by injection h with h; exact h.symm⟩
  · cases ho : st.out
    swap
    · rw [resolve_out _ _ ho hs] at h; cases h
    by_cases he : tok cmd_arg 0 = .EX
    · rw [resolve_exit _ _ he ho] at h
      split_ifs at h
      right; left; exact ⟨he, rfl, by injection h with h; exact h.symm⟩
    · by_cases hk : tok cmd_arg 0 = .KEYTABLE
      · rw [resolve_keytable _ _ hk ho] at h
        right; right; left
        refine ⟨hk, rfl, ?_⟩
        split_ifs at h <;> cases h <;> simp
      · by_cases hp : tok cmd_arg 0 = .PKI
        · rw [resolve_pki _ _ hp ho] at h
          right; right; right
          refine ⟨hp, rfl, ?_⟩
          split_ifs at h <;> cases h <;> simp
        · rw [resolve_rest _ _ hs he hk hp] at h; cases h

/-- The ten outcomes of the classifier on a word. -/
theorem check_arg_cases (w : String) :
    (w = "seal" ∧ check_arg (some w) = .SEAL) ∨
    (w = "exit" ∧ check_arg (some w) = .EX) ∨
    (w = "keytable" ∧ check_arg (some w) = .KEYTABLE) ∨
    (w = "pki" ∧ check_arg (some w) = .PKI) ∨
    (w = "remove" ∧ check_arg (some w) = .REMOVE) ∨
    (w = "list" ∧ check_arg (some w) = .LIST) ∨
    (w = "load" ∧ check_arg (some w) = .LOAD) ∨
    (w = "cert" ∧ check_arg (some w) = .CERT) ∨
    (w = "private" ∧ check_arg (some w) = .PRIVATE) ∨
    ((w ≠ "seal" ∧ w ≠ "exit" ∧ w ≠ "keytable" ∧ w ≠ "pki" ∧ w ≠ "remove" ∧ w ≠ "list" ∧
        w ≠ "load" ∧ w ≠ "cert" ∧ w ≠ "private") ∧ check_arg (some w) = .OTHER) := by
  rw [check_arg_some]
  by_cases h1 : w = "seal"
  · exact Or.inl ⟨h1, if_pos h1⟩
  rw [if_neg h1]; right
  by_cases h2 : w = "exit"
  · exact Or.inl ⟨h2, if_pos h2⟩
  rw [if_neg h2]; right
  by_cases h3 : w = "keytable"
  · exact Or.inl ⟨h3, if_pos h3⟩
  rw [if_neg h3]; right
  by_cases h4 : w = "pki"
  · exact Or.inl ⟨h4, if_pos h4⟩
  rw [if_neg h4]; right
  by_cases h5 : w = "remove"
  · exact Or.inl ⟨h5, if_pos h5⟩
  rw [if_neg h5]; right
  by_cases h6 : w = "list"
  · exact Or.inl ⟨h6, if_pos h6⟩
  rw [if_neg h6]; right
  by_cases h7 : w = "load"
  · exact Or.inl ⟨h7, if_pos h7⟩
  rw [if_neg h7]; right
  by_cases h8 : w = "cert"
  · exact Or.inl ⟨h8, if_pos h8⟩
  rw [if_neg h8]; right
  by_cases h9 : w = "private"
  · exact Or.inl ⟨h9, if_pos h9⟩
  rw [if_neg h9]; right
  exact ⟨⟨h1, h2, h3, h4, h5, h6, h7, h8, h9⟩, rfl⟩

theorem length_pos_of_ne_empty (s : String) (h : s ≠ "") : 0 < s.length := by
  rcases s with ⟨l⟩
  cases l with
  | nil => exact absurd rfl h
  | cons a t => simp [String.length]

theorem str_take_length (s : String) (n : Nat) (h : n < s.length) :
    (str_take s n).length = n := by
  simp only [str_take, String.length, List.length_take]
  exact Nat.min_eq_left (le_of_lt h)

theorem request_of_ne_default (argv : Nat → Option String) (k c : Nat) (hc : c ≤ 10) :
    request_of argv k c ≠ .default := by
  have harg : ∀ (n : Nat) (x : Option String), arg_request n x ≠ .default := by
    intro n x; cases x <;> simp [arg_request]
  interval_cases c <;> simp [request_of, harg]

/-! ## Lemmas on `main` -/

theorem str_take_self (s : String) : str_take s (strlen s) = s := by
  rcases s with ⟨l⟩
  show (⟨l.take l.length⟩ : String) = ⟨l⟩
  rw [List.take_length]

theorem option_step_error (prog : Option String) (st : OptState) (o : GetOpt) (r : Run)
    (h : option_step prog st o = .error r) :
    r = ⟨some 0, [.usage prog]⟩ ∨ r = ⟨some 1, []⟩ := by
  cases o <;> simp [option_step] at h <;> simp [← h]

theorem option_loop_error (prog : Option String) (opts : List GetOpt) (st : OptState) (r : Run)
    (h : option_loop prog opts st = .error r) :
    r = ⟨some 0, [.usage prog]⟩ ∨ r = ⟨some 1, []⟩ := by
  induction opts generalizing st with
  | nil => simp [option_loop] at h
  | cons o os ih =>
    simp only [option_loop] at h
    cases hs : option_step prog st o with
    | ok st1 => rw [hs] at h; exact ih st1 h
    | error r1 =>
      rw [hs] at h
      have : r1 = r := by injection h
      subst this
      exact option_step_error prog st o r1 hs

/-- The four ways a run of `main` goes. -/
theorem main_cases (argc : Nat) (argv : Nat → Option String) (opts : List GetOpt) (env : Env) :
    (argc = 1 ∧ main argc argv opts env = ⟨some 0, [.usage (argv 0)]⟩) ∨
    (argc ≠ 1 ∧ ∃ r, option_loop (argv 0) opts OptState.init = .error r ∧
      main argc argv opts env = r ∧ (r = ⟨some 0, [.usage (argv 0)]⟩ ∨ r = ⟨some 1, []⟩)) ∨
    (argc ≠ 1 ∧ ∃ st u, option_loop (argv 0) opts OptState.init = .ok st ∧
      resolve (classify argv st.arg_index) st = .error u ∧
      main argc argv opts env = ⟨some 1, [u.effect (argv 0)]⟩) ∨
    (argc ≠ 1 ∧ ∃ st c, option_loop (argv 0) opts OptState.init = .ok st ∧
      resolve (classify argv st.arg_index) st = .ok c ∧
      main argc argv opts env = dispatch argv st env c) := by
  by_cases h1 : argc = 1
  · exact Or.inl ⟨h1, by simp [main, h1]⟩
  · right
    cases ho : option_loop (argv 0) opts OptState.init with
    | error r =>
      exact Or.inl ⟨h1, r, rfl, by simp [main, h1, ho], option_loop_error _ _ _ r ho⟩
    | ok st =>
      right
      cases hr : resolve (classify argv st.arg_index) st with
      | error u => exact Or.inl ⟨h1, st, u, rfl, hr, by simp [main, h1, ho, hr]⟩
      | ok c => exact Or.inr ⟨h1, st, c, rfl, hr, by simp [main, h1, ho, hr]⟩

theorem usage_effect_kind (prog : Option String) (u : UsageKind) :
    (u.effect prog).is_usage = true ∧ (u.effect prog).is_action = false := by
  cases u <;> exact ⟨rfl, rfl⟩

/-- A resolved opcode that takes an argument finds its word present. -/
theorem resolve_ok_tokens (cmd_arg : List CmdArgValue) (st : OptState) (c : Nat)
    (h : resolve cmd_arg st = .ok c) :
    (c = 0 → tok cmd_arg 1 = .OTHER) ∧
    (c = 2 ∨ c = 8 → tok cmd_arg 2 = .OTHER) ∧
    (c = 5 ∨ c = 6 → tok cmd_arg 3 = .OTHER) := by
  rcases resolve_ok_family cmd_arg st c h with h1 | h1 | h1 | h1
  · rw [resolve_seal _ _ h1.1] at h
    split_ifs at h with h2
    exact ⟨fun _ => h2.1, by omega, by omega⟩
  · exact ⟨by omega, by omega, by omega⟩
  · rw [resolve_keytable _ _ h1.1 h1.2.1] at h
    refine ⟨by omega, ?_, by omega⟩
    intro hc
    split_ifs at h with h2 h3 h4 h5 <;> first | exact h4.1 | (injection h with h; omega)
  · rw [resolve_pki _ _ h1.1 h1.2.1] at h
    refine ⟨by omega, ?_, ?_⟩
    · intro hc
      split_ifs at h with h2 h3 h4 h5 h6 h7 h8 h9 <;>
        first | exact h9.1 | (injection h with h; omega)
    · intro hc
      split_ifs at h with h2 h3 h4 h5 h6 h7 h8 h9 <;>
        first | exact h3.2.1 | exact h4.2.1 | (injection h with h; omega)

/-- The request of a resolved opcode: never the `default` branch, never a
null pointer under `strlen`. -/
theorem resolved_request (argv : Nat → Option String) (st : OptState) (c : Nat)
    (h : resolve (classify argv st.arg_index) st = .ok c) :
    (c = 0 ∧ ∃ w, request_of argv st.arg_index c = .seal (some w)) ∨
    (1 ≤ c ∧ c ≤ 10 ∧ ∃ a n, request_of argv st.arg_index c = .arg c a n) ∨
    (1 ≤ c ∧ c ≤ 10 ∧ request_of argv st.arg_index c = .list c) := by
  obtain ⟨t0, t2, t3⟩ := resolve_ok_tokens _ st c h
  have hle : c ≤ 10 := by
    rcases resolve_ok_family _ st c h with h1 | h1 | h1 | h1 <;> omega
  have e2 : st.arg_index + 2 = st.arg_index + 1 + 1 := by omega
  have e3 : st.arg_index + 3 = st.arg_index + 1 + 2 := by omega
  have e4 : st.arg_index + 4 = st.arg_index + 1 + 3 := by omega
  interval_cases c
  · obtain ⟨w, hw⟩ := classify_other argv st.arg_index 1 (by decide) (t0 rfl)
    exact Or.inl ⟨rfl, w, by simp only [request_of]; rw [e2, hw]⟩
  · exact Or.inr (Or.inl ⟨by decide, by decide, none, 0, rfl⟩)
  · obtain ⟨w, hw⟩ := classify_other argv st.arg_index 2 (by decide) (t2 (Or.inl rfl))
    exact Or.inr (Or.inl ⟨by decide, by decide, some w, strlen w, by
      simp only [request_of]; rw [e3, hw]; rfl⟩)
  · exact Or.inr (Or.inl ⟨by decide, by decide, none, 0, rfl⟩)
  · exact Or.inr (Or.inr ⟨by decide, by decide, rfl⟩)
  · obtain ⟨w, hw⟩ := classify_other argv st.arg_index 3 (by decide) (t3 (Or.inl rfl))
    exact Or.inr (Or.inl ⟨by decide, by decide, some w, strlen w, by
      simp only [request_of]; rw [e4, hw]; rfl⟩)
  · obtain ⟨w, hw⟩ := classify_other argv st.arg_index 3 (by decide) (t3 (Or.inr rfl))
    exact Or.inr (Or.inl ⟨by decide, by decide, some w, strlen w, by
      simp only [request_of]; rw [e4, hw]; rfl⟩)
  · exact Or.inr (Or.inr ⟨by decide, by decide, rfl⟩)
  · obtain ⟨w, hw⟩ := classify_other argv st.arg_index 2 (by decide) (t2 (Or.inr rfl))
    exact Or.inr (Or.inl ⟨by decide, by decide, some w, strlen w, by
      simp only [request_of]; rw [e3, hw]; rfl⟩)
  · exact Or.inr (Or.inl ⟨by decide, by decide, none, 0, rfl⟩)
  · exact Or.inr (Or.inl ⟨by decide, by decide, none, 0, rfl⟩)

theorem msg_cmd_no_fifo_call (env : Env) (pipe msg : String) :
    ∀ e ∈ (msg_cmd env pipe msg).2, e.is_fifo_call = false := by
  intro e he
  simp only [msg_cmd] at he
  split_ifs at he <;> simp at he <;> rcases he with rfl | rfl | rfl <;> rfl

/-- The run of a resolved opcode: the reply pipe is created first and removed
last, with no other creation or removal between, and `main` returns. The value
returned is 0 for every opcode sent to the service. -/
theorem dispatch_shape (argv : Nat → Option String) (st : OptState) (env : Env) (c : Nat)
    (h : resolve (classify argv st.arg_index) st = .ok c) :
    ∃ mid code, dispatch argv st env c =
        ⟨some code, .mkfifo (fifo_name env) MODE :: (mid ++ [.remove_pipe (fifo_name env)])⟩ ∧
      (∀ e ∈ mid, e.is_fifo_call = false) ∧ (1 ≤ c → code = 0) := by
  rcases resolved_request argv st c h with ⟨h0, w, hw⟩ | ⟨h1, _, a, n, hw⟩ | ⟨h1, _, hw⟩
  · by_cases hs : env.seal_ret ≠ 0
    · refine ⟨[.seal (some w) st.outPath st.outPath_size st.tpm], 1, ?_, ?_, by omega⟩
      · simp [dispatch, hw, perform, hs]
      · intro e he; simp at he; subst he; rfl
    · refine ⟨[.seal (some w) st.outPath st.outPath_size st.tpm, .sealed_msg env.seal_outPath],
        0, ?_, ?_, fun _ => rfl⟩
      · simp [dispatch, hw, perform, hs]
      · intro e he; simp at he; rcases he with rfl | rfl <;> rfl
  · refine ⟨(msg_arg env (fifo_name env) (strlen (fifo_name env)) c a n).2, 0, ?_, ?_,
      fun _ => rfl⟩
    · simp [dispatch, hw, perform]
    · exact msg_cmd_no_fifo_call env _ _
  · refine ⟨(msg_list env (fifo_name env) (strlen (fifo_name env)) c).2, 0, ?_, ?_,
      fun _ => rfl⟩
    · simp [dispatch, hw, perform]
    · exact msg_cmd_no_fifo_call env _ _

/-! ## The resolver -/

/-- C1: with `tokens[0] = pki` and no output option, the resolver yields 5 iff
load, cert, other, empty follow; 6 iff load, private, other, empty; 7 iff cert,
list, empty; 9 iff remove with the all flag; 10 iff remove, no all flag,
private, empty; 8 iff remove, no all flag, other, empty; and it fails with the
pki usage block otherwise, whatever the tpm flag. The argument passed on is the
word at position 3 for the two load commands, the word at position 2 for the
removal of a certificate, and null for 9 and 10; 7 goes through `msg_list`,
which takes no argument. The command line `pki load cert /tmp/x.ski` resolves
to 5 with the argument `/tmp/x.ski`. -/
theorem pki_resolution :
    (∀ (cmd_arg : List CmdArgValue) (st : OptState),
      tok cmd_arg 0 = .PKI → st.out = false →
        (resolve cmd_arg st = .ok 5 ↔
          tok cmd_arg 1 = .LOAD ∧ tok cmd_arg 2 = .CERT ∧ tok cmd_arg 3 = .OTHER ∧
            tok cmd_arg 4 = .EMPTY) ∧
        (resolve cmd_arg st = .ok 6 ↔
          tok cmd_arg 1 = .LOAD ∧ tok cmd_arg 2 = .PRIVATE ∧ tok cmd_arg 3 = .OTHER ∧
            tok cmd_arg 4 = .EMPTY) ∧
        (resolve cmd_arg st = .ok 7 ↔
          tok cmd_arg 1 = .CERT ∧ tok cmd_arg 2 = .LIST ∧ tok cmd_arg 3 = .EMPTY) ∧
        (resolve cmd_arg st = .ok 9 ↔ tok cmd_arg 1 = .REMOVE ∧ st.all = true) ∧
        (resolve cmd_arg st = .ok 10 ↔
          tok cmd_arg 1 = .REMOVE ∧ st.all = false ∧ tok cmd_arg 2 = .PRIVATE ∧
            tok cmd_arg 3 = .EMPTY) ∧
        (resolve cmd_arg st = .ok 8 ↔
          tok cmd_arg 1 = .REMOVE ∧ st.all = false ∧ tok cmd_arg 2 = .OTHER ∧
            tok cmd_arg 3 = .EMPTY) ∧
        (resolve cmd_arg st = .ok 5 ∨ resolve cmd_arg st = .ok 6 ∨ resolve cmd_arg st = .ok 7 ∨
          resolve cmd_arg st = .ok 8 ∨ resolve cmd_arg st = .ok 9 ∨
          resolve cmd_arg st = .ok 10 ∨ resolve cmd_arg st = .error .pki)) ∧
    (∀ (argv : Nat → Option String) (st : OptState),
      tok (classify argv st.arg_index) 0 = .PKI → st.out = false →
        (resolve (classify argv st.arg_index) st = .ok 5 →
          ∃ w, argv (st.arg_index + 1 + 3) = some w ∧
            request_of argv st.arg_index 5 = .arg 5 (some w) (strlen w)) ∧
        (resolve (classify argv st.arg_index) st = .ok 6 →
          ∃ w, argv (st.arg_index + 1 + 3) = some w ∧
            request_of argv st.arg_index 6 = .arg 6 (some w) (strlen w)) ∧
        (resolve (classify argv st.arg_index) st = .ok 8 →
          ∃ w, argv (st.arg_index + 1 + 2) = some w ∧
            request_of argv st.arg_index 8 = .arg 8 (some w) (strlen w)) ∧
        request_of argv st.arg_index 7 = .list 7 ∧
        request_of argv st.arg_index 9 = .arg 9 none 0 ∧
        request_of argv st.arg_index 10 = .arg 10 none 0) ∧
    (resolve (classify (argv_of ["pelz", "pki", "load", "cert", "/tmp/x.ski"]) 0)
        OptState.init = .ok 5 ∧
      request_of (argv_of ["pelz", "pki", "load", "cert", "/tmp/x.ski"]) 0 5 =
        .arg 5 (some "/tmp/x.ski") 10 ∧
      request_line "P" (request_of (argv_of ["pelz", "pki", "load", "cert", "/tmp/x.ski"]) 0 5) =
        some "pelz 5 P /tmp/x.ski") := by
  refine and_of_imp ?_ (fun hA => ⟨?_, ?_⟩)
  · intro cmd_arg st h0 hout
    rw [resolve_pki cmd_arg st h0 hout]
    generalize tok cmd_arg 1 = t1
    generalize tok cmd_arg 2 = t2
    generalize tok cmd_arg 3 = t3
    generalize tok cmd_arg 4 = t4
    generalize st.all = al
    by_cases h1 : t1 = .LOAD
    · subst h1
      by_cases h2 : t2 = .CERT
      · subst h2; by_cases h3 : t3 = .OTHER ∧ t4 = .EMPTY <;> simp [h3]
      · by_cases h2p : t2 = .PRIVATE
        · subst h2p; by_cases h3 : t3 = .OTHER ∧ t4 = .EMPTY <;> simp [h3]
        · simp [h2, h2p]
    · by_cases h1c : t1 = .CERT
      · subst h1c
        by_cases h2 : t2 = .LIST ∧ t3 = .EMPTY <;> simp [h2]
      · by_cases h1r : t1 = .REMOVE
        · subst h1r
          cases al
          · by_cases h2 : t2 = .PRIVATE
            · subst h2; by_cases h3 : t3 = .EMPTY <;> simp [h3]
            · by_cases h2o : t2 = .OTHER
              · subst h2o; by_cases h3 : t3 = .EMPTY <;> simp [h3]
              · simp [h2, h2o]
          · simp
        · simp [h1, h1c, h1r]
  · intro argv st h0 hout
    obtain ⟨h5, h6, _, _, _, h8, _⟩ := hA _ st h0 hout
    refine ⟨?_, ?_, ?_, rfl, rfl, rfl⟩
    · intro h
      obtain ⟨w, hw⟩ := classify_other argv st.arg_index 3 (by decide) (h5.mp h).2.2.1
      exact ⟨w, hw, by simp only [request_of]; rw [show st.arg_index + 4 = st.arg_index + 1 + 3 by omega, hw]; rfl⟩
    · intro h
      obtain ⟨w, hw⟩ := classify_other argv st.arg_index 3 (by decide) (h6.mp h).2.2.1
      exact ⟨w, hw, by simp only [request_of]; rw [show st.arg_index + 4 = st.arg_index + 1 + 3 by omega, hw]; rfl⟩
    · intro h
      obtain ⟨w, hw⟩ := classify_other argv st.arg_index 2 (by decide) (h8.mp h).2.2.1
      exact ⟨w, hw, by simp only [request_of]; rw [show st.arg_index + 3 = st.arg_index + 1 + 2 by omega, hw]; rfl⟩
  · exact ⟨rfl, rfl, rfl⟩

/-- C2: with `tokens[0] = keytable` and no output option, the resolver yields
3 iff remove follows and the all flag is set, whatever the later tokens; 2 iff
remove, no all flag, other, empty, and then the argument passed on is the word
at position 2; 4 iff list, empty; and it fails with the keytable usage block
otherwise. The opcodes 3 and 4 carry no argument. -/
theorem keytable_resolution :
    (∀ (cmd_arg : List CmdArgValue) (st : OptState),
      tok cmd_arg 0 = .KEYTABLE → st.out = false →
        (resolve cmd_arg st = .ok 3 ↔ tok cmd_arg 1 = .REMOVE ∧ st.all = true) ∧
        (resolve cmd_arg st = .ok 2 ↔
          tok cmd_arg 1 = .REMOVE ∧ st.all = false ∧ tok cmd_arg 2 = .OTHER ∧
            tok cmd_arg 3 = .EMPTY) ∧
        (resolve cmd_arg st = .ok 4 ↔ tok cmd_arg 1 = .LIST ∧ tok cmd_arg 2 = .EMPTY) ∧
        (resolve cmd_arg st = .ok 2 ∨ resolve cmd_arg st = .ok 3 ∨ resolve cmd_arg st = .ok 4 ∨
          resolve cmd_arg st = .error .keytable)) ∧
    (∀ (argv : Nat → Option String) (st : OptState),
      tok (classify argv st.arg_index) 0 = .KEYTABLE → st.out = false →
        (resolve (classify argv st.arg_index) st = .ok 2 →
          ∃ w, argv (st.arg_index + 1 + 2) = some w ∧
            request_of argv st.arg_index 2 = .arg 2 (some w) (strlen w)) ∧
        request_of argv st.arg_index 3 = .arg 3 none 0 ∧
        request_of argv st.arg_index 4 = .list 4) ∧
    (∀ t2 t3 t4 : CmdArgValue,
      resolve [.KEYTABLE, .REMOVE, t2, t3, t4] ⟨1, true, false, false, none, 0⟩ = .ok 3) := by
  refine and_of_imp ?_ (fun hA => ⟨?_, ?_⟩)
  · intro cmd_arg st h0 hout
    rw [resolve_keytable cmd_arg st h0 hout]
    generalize tok cmd_arg 1 = t1
    generalize tok cmd_arg 2 = t2
    generalize tok cmd_arg 3 = t3
    generalize st.all = al
    by_cases h1 : t1 = .REMOVE
    · subst h1
      cases al
      · by_cases h2 : t2 = .OTHER ∧ t3 = .EMPTY <;> simp [h2]
      · simp
    · by_cases h1l : t1 = .LIST
      · subst h1l
        by_cases h2 : t2 = .EMPTY <;> simp [h2]
      · simp [h1, h1l]
  · intro argv st h0 hout
    obtain ⟨_, h2, _, _⟩ := hA _ st h0 hout
    refine ⟨?_, rfl, rfl⟩
    intro h
    obtain ⟨w, hw⟩ := classify_other argv st.arg_index 2 (by decide) (h2.mp h).2.2.1
    exact ⟨w, hw, by
      simp only [request_of]
      rw [show st.arg_index + 3 = st.arg_index + 1 + 2 by omega, hw]; rfl⟩
  · intro t2 t3 t4
    exact ((hA [.KEYTABLE, .REMOVE, t2, t3, t4] ⟨1, true, false, false, none, 0⟩ rfl rfl).1).mpr
      ⟨rfl, rfl⟩

/-- C3: the resolver yields 0 (seal) iff the tokens are seal, other, empty,
with or without the output option, and the path passed to `seal` is the word at
position 1; it yields 1 (exit) iff the tokens are exit, empty and the output
option is not set, with no argument; and under the output option every
command line whose first token is not seal fails, whatever its other tokens and
flags. So `seal /tmp/f` with an output path resolves and `exit` with one
fails. -/
theorem seal_exit_resolution :
    (∀ (cmd_arg : List CmdArgValue) (st : OptState),
      (resolve cmd_arg st = .ok 0 ↔
        tok cmd_arg 0 = .SEAL ∧ tok cmd_arg 1 = .OTHER ∧ tok cmd_arg 2 = .EMPTY) ∧
      (resolve cmd_arg st = .ok 1 ↔
        tok cmd_arg 0 = .EX ∧ tok cmd_arg 1 = .EMPTY ∧ st.out = false) ∧
      (st.out = true → tok cmd_arg 0 ≠ .SEAL → resolve cmd_arg st = .error .general)) ∧
    (∀ (argv : Nat → Option String) (st : OptState),
      (resolve (classify argv st.arg_index) st = .ok 0 →
        ∃ w, argv (st.arg_index + 1 + 1) = some w ∧
          request_of argv st.arg_index 0 = .seal (some w)) ∧
      request_of argv st.arg_index 1 = .arg 1 none 0) ∧
    (resolve (classify (argv_of ["pelz", "-o", "out", "seal", "/tmp/f"]) 2)
        ⟨2, false, false, true, some "out", 4⟩ = .ok 0 ∧
      request_of (argv_of ["pelz", "-o", "out", "seal", "/tmp/f"]) 2 0 = .seal (some "/tmp/f") ∧
      resolve (classify (argv_of ["pelz", "-o", "out", "exit"]) 2)
        ⟨2, false, false, true, some "out", 4⟩ = .error .general) := by
  refine and_of_imp ?_ (fun hA => ⟨?_, ?_⟩)
  · intro cmd_arg st
    refine ⟨?_, ?_, fun ho hs => resolve_out cmd_arg st ho hs⟩
    · constructor
      · intro h
        rcases resolve_ok_family cmd_arg st 0 h with h1 | h1 | h1 | h1
        · rw [resolve_seal _ _ h1.1] at h
          split_ifs at h with h2
          exact ⟨h1.1, h2⟩
        · omega
        · omega
        · omega
      · rintro ⟨h0, h12⟩
        rw [resolve_seal _ _ h0, if_pos h12]
    · constructor
      · intro h
        rcases resolve_ok_family cmd_arg st 1 h with h1 | h1 | h1 | h1
        · omega
        · rw [resolve_exit _ _ h1.1 h1.2.1] at h
          split_ifs at h with h2
          exact ⟨h1.1, h2, h1.2.1⟩
        · omega
        · omega
      · rintro ⟨h0, h1, ho⟩
        rw [resolve_exit _ _ h0 ho, if_pos h1]
  · intro argv st
    refine ⟨?_, rfl⟩
    intro h
    obtain ⟨w, hw⟩ :=
      classify_other argv st.arg_index 1 (by decide) (((hA _ st).1.mp h).2.1)
    exact ⟨w, hw, by
      simp only [request_of]
      rw [show st.arg_index + 2 = st.arg_index + 1 + 1 by omega, hw]⟩
  · exact ⟨rfl, rfl, rfl⟩

/-- C4: `check_arg` is a total exact-match classifier. A null pointer yields
`EMPTY` and a word never does; for each of the nine keywords a word is given the
token of the keyword iff it is the keyword itself; a word is `OTHER` iff it is
none of the nine. In particular a word of 8 characters other than `keytable`
is not `KEYTABLE`, a keyword followed by more characters is not classified as
that keyword, and neither is a proper initial part of a keyword. -/
theorem check_arg_exact :
    check_arg none = .EMPTY ∧
    (∀ w : String, check_arg (some w) ≠ .EMPTY) ∧
    (∀ (w : String) (kw : String × CmdArgValue), kw ∈ keywords →
      (check_arg (some w) = kw.2 ↔ w = kw.1)) ∧
    (∀ w : String, check_arg (some w) = .OTHER ↔ ∀ kw ∈ keywords, w ≠ kw.1) ∧
    (∀ w : String, w.length = 8 → w ≠ "keytable" → check_arg (some w) ≠ .KEYTABLE) ∧
    (∀ kw ∈ keywords, ∀ s : String, s ≠ "" → check_arg (some (kw.1 ++ s)) ≠ kw.2) ∧
    (∀ kw ∈ keywords, ∀ n : Nat, n < kw.1.length →
      check_arg (some (str_take kw.1 n)) ≠ kw.2) := by
  have hiff : ∀ (w : String) (kw : String × CmdArgValue), kw ∈ keywords →
      (check_arg (some w) = kw.2 ↔ w = kw.1) := by
    intro w kw hkw
    simp only [keywords, List.mem_cons, List.mem_singleton, List.not_mem_nil, or_false] at hkw
    rcases check_arg_cases w with
      ⟨h, hc⟩ | ⟨h, hc⟩ | ⟨h, hc⟩ | ⟨h, hc⟩ | ⟨h, hc⟩ | ⟨h, hc⟩ | ⟨h, hc⟩ | ⟨h, hc⟩ | ⟨h, hc⟩ |
      ⟨⟨h1, h2, h3, h4, h5, h6, h7, h8, h9⟩, hc⟩
    all_goals rw [hc]
    all_goals
      rcases hkw with rfl | rfl | rfl | rfl | rfl | rfl | rfl | rfl | rfl
    all_goals first
      | (subst h; decide)
      | simp [h1, h2, h3, h4, h5, h6, h7, h8, h9]
  refine ⟨rfl, ?_, hiff, ?_, ?_, ?_, ?_⟩
  · intro w h
    have := (check_arg_eq_empty (some w)).mp h
    cases this
  · intro w
    simp only [keywords, List.mem_cons, List.mem_singleton, List.not_mem_nil, or_false,
      forall_eq_or_imp, forall_eq]
    rcases check_arg_cases w with
      ⟨h, hc⟩ | ⟨h, hc⟩ | ⟨h, hc⟩ | ⟨h, hc⟩ | ⟨h, hc⟩ | ⟨h, hc⟩ | ⟨h, hc⟩ | ⟨h, hc⟩ | ⟨h, hc⟩ |
      ⟨hne, hc⟩
    all_goals rw [hc]
    all_goals first
      | exact ⟨fun _ => hne, fun _ => rfl⟩
      | (subst h; decide)
  · intro w _ hne h
    exact hne ((hiff w ("keytable", .KEYTABLE) (by simp [keywords])).mp h)
  · intro kw hkw s hs h
    have h1 := congrArg String.length ((hiff _ kw hkw).mp h)
    have h2 := length_pos_of_ne_empty s hs
    rw [String.length_append] at h1
    omega
  · intro kw hkw n hn h
    have h1 := congrArg String.length ((hiff _ kw hkw).mp h)
    rw [str_take_length _ _ hn] at h1
    omega

/-- C5: the resolver is a total function of the token array and the flags;
whatever they are it either fails with a usage block or yields one opcode, and
that opcode is at most 10. Hence the `switch (cmd)` of the dispatch never takes
its `default` branch on a resolved opcode. -/
theorem resolve_total (cmd_arg : List CmdArgValue) (st : OptState) :
    ((∃ u, resolve cmd_arg st = .error u) ∨
      (∃ c, resolve cmd_arg st = .ok c ∧ 0 ≤ c ∧ c ≤ 10)) ∧
    (∀ c, resolve cmd_arg st = .ok c →
      ∀ argv : Nat → Option String, request_of argv st.arg_index c ≠ .default) := by
  have hle : ∀ c, resolve cmd_arg st = .ok c → c ≤ 10 := by
    intro c h
    rcases resolve_ok_family cmd_arg st c h with h1 | h1 | h1 | h1 <;> omega
  constructor
  · cases h : resolve cmd_arg st with
    | error u => exact Or.inl ⟨u, rfl⟩
    | ok c => exact Or.inr ⟨c, rfl, Nat.zero_le c, hle c h⟩
  · intro c h argv
    exact request_of_ne_default argv st.arg_index c (hle c h)

/-! ## The client as a whole -/

/-- C6: a usage error comes before any transport or privileged action. When
the command line does not resolve to an opcode, the run of the client has no
`mkfifo`, no `seal`, no opening of the reply pipe, no write to the service pipe,
no read of a reply and no `remove_pipe`: nothing is dispatched. -/
theorem usage_before_transport (argc : Nat) (argv : Nat → Option String)
    (opts : List GetOpt) (env : Env)
    (hfail : ∀ st c, option_loop (argv 0) opts OptState.init = .ok st →
      resolve (classify argv st.arg_index) st ≠ .ok c) :
    ∀ e ∈ (main argc argv opts env).trace, e.is_action = false := by
  intro e he
  rcases main_cases argc argv opts env with
    ⟨_, hm⟩ | ⟨_, r, _, hm, hr | hr⟩ | ⟨_, st, u, _, _, hm⟩ | ⟨_, st, c, ho, hr, _⟩
  · rw [hm] at he; simp at he; subst he; rfl
  · rw [hm, hr] at he; simp at he; subst he; rfl
  · rw [hm, hr] at he; simp at he
  · rw [hm] at he; simp at he; subst he; exact (usage_effect_kind _ u).2
  · exact absurd hr (hfail st c ho)

/-- Witness for C6: `pelz -o x exit` does not resolve and acts on nothing. -/
theorem usage_before_transport_witness :
    resolve (classify (argv_of ["pelz", "-o", "x", "exit"]) 2)
        ⟨2, false, false, true, some "x", 2⟩ = .error .general ∧
    ((main 4 (argv_of ["pelz", "-o", "x", "exit"]) [.o "x"] env_up).trace.all
      fun e => e.is_action == false) = true :=
  ⟨rfl, List.all_eq_true.mpr fun e he => by
    have hact := usage_before_transport 4 (argv_of ["pelz", "-o", "x", "exit"]) [.o "x"]
      env_up (by
        intro st c h
        have hst : st = ⟨2, false, false, true, some "x", 2⟩ := by
          have h2 : option_loop (argv_of ["pelz", "-o", "x", "exit"] 0) [.o "x"]
              OptState.init = .ok ⟨2, false, false, true, some "x", 2⟩ := rfl
          rw [h2] at h
          injection h with h
          exact h.symm
        subst hst
        have h3 : resolve (classify (argv_of ["pelz", "-o", "x", "exit"]) 2)
            ⟨2, false, false, true, some "x", 2⟩ = .error .general := rfl
        rw [h3]
        intro hc
        cases hc) e he
    rw [hact]
    rfl⟩

/-- Counterexample to C7: the command line `pelz` alone has no token
(`tokens[0]` is `EMPTY`) and no option, does not resolve, and the client prints
the usage block and returns 0, not 1. And on `pelz -x`, whose option the parser
rejects, the client returns 1 and prints no usage block. -/
theorem no_word_returns_zero :
    (option_loop (argv_of ["pelz"] 0) [] OptState.init = .ok OptState.init ∧
      tok (classify (argv_of ["pelz"]) 0) 0 = .EMPTY ∧
      resolve (classify (argv_of ["pelz"]) 0) OptState.init = .error .general ∧
      main 1 (argv_of ["pelz"]) [] env_up = ⟨some 0, [.usage (some "pelz")]⟩ ∧
      (main 1 (argv_of ["pelz"]) [] env_up).status ≠ some 1) ∧
    main 2 (argv_of ["pelz", "-x"]) [.unknown] env_up = ⟨some 1, []⟩ :=
  ⟨⟨rfl, rfl, rfl, rfl, by decide⟩, rfl⟩

theorem option_loop_rejected (prog : Option String) :
    ∀ (opts : List GetOpt) (st : OptState), (∀ o ∈ opts, o ≠ .h) → GetOpt.unknown ∈ opts →
      option_loop prog opts st = .error ⟨some 1, []⟩ := by
  intro opts
  induction opts with
  | nil => intro st _ hu; simp at hu
  | cons o os ih =>
    intro st hh hu
    have hos : ∀ x ∈ os, x ≠ .h := fun x hx => hh x (List.mem_cons_of_mem o hx)
    have ho : o ≠ .h := hh o (List.mem_cons_self o os)
    cases o with
    | h => exact absurd rfl ho
    | unknown => rfl
    | d =>
      simp only [option_loop, option_step]
      exact ih _ hos (by simpa using hu)
    | t =>
      simp only [option_loop, option_step]
      exact ih _ hos (by simpa using hu)
    | a =>
      simp only [option_loop, option_step]
      exact ih _ hos (by simpa using hu)
    | o optarg =>
      simp only [option_loop, option_step]
      exact ih _ hos (by simpa using hu)

theorem option_loop_help (prog : Option String) (post : List GetOpt) :
    ∀ (pre : List GetOpt) (st : OptState), (∀ o ∈ pre, o ≠ .h ∧ o ≠ .unknown) →
      option_loop prog (pre ++ .h :: post) st = .error ⟨some 0, [.usage prog]⟩ := by
  intro pre
  induction pre with
  | nil => intro st _; rfl
  | cons o os ih =>
    intro st hacc
    have hos : ∀ x ∈ os, x ≠ .h ∧ x ≠ .unknown :=
      fun x hx => hacc x (List.mem_cons_of_mem o hx)
    have ho := hacc o (List.mem_cons_self o os)
    cases o with
    | h => exact absurd rfl ho.1
    | unknown => exact absurd rfl ho.2
    | d => simp only [List.cons_append, option_loop, option_step]; exact ih _ hos
    | t => simp only [List.cons_append, option_loop, option_step]; exact ih _ hos
    | a => simp only [List.cons_append, option_loop, option_step]; exact ih _ hos
    | o optarg => simp only [List.cons_append, option_loop, option_step]; exact ih _ hos

theorem option_loop_accepted (prog : Option String) :
    ∀ (opts : List GetOpt) (st : OptState), (∀ o ∈ opts, o ≠ .h ∧ o ≠ .unknown) →
      ∃ st1, option_loop prog opts st = .ok st1 := by
  intro opts
  induction opts with
  | nil => intro st _; exact ⟨st, rfl⟩
  | cons o os ih =>
    intro st hacc
    have hos : ∀ x ∈ os, x ≠ .h ∧ x ≠ .unknown :=
      fun x hx => hacc x (List.mem_cons_of_mem o hx)
    have ho := hacc o (List.mem_cons_self o os)
    cases o with
    | h => exact absurd rfl ho.1
    | unknown => exact absurd rfl ho.2
    | d => simp only [option_loop, option_step]; exact ih _ hos
    | t => simp only [option_loop, option_step]; exact ih _ hos
    | a => simp only [option_loop, option_step]; exact ih _ hos
    | o optarg => simp only [option_loop, option_step]; exact ih _ hos

/-- C7, amended: when the command line has at least one word after the program
name (`argc` is not 1), its options are all accepted and its tokens do not
resolve, the client prints one usage block, the one of the family, and returns
1; with no word at all after the program name it prints the general usage
block and returns 0. A command line without the help option and with an option
the parser rejects returns 1 and the client prints no usage block; a command
line whose help option comes before any rejected option returns 0 after the
general usage block. Options that are all accepted never end the run in the
option loop. -/
theorem unresolved_prints_usage (argc : Nat) (argv : Nat → Option String)
    (opts : List GetOpt) (env : Env) :
    (argc = 1 → main argc argv opts env = ⟨some 0, [.usage (argv 0)]⟩) ∧
    (∀ st u, argc ≠ 1 → option_loop (argv 0) opts OptState.init = .ok st →
      resolve (classify argv st.arg_index) st = .error u →
        main argc argv opts env = ⟨some 1, [u.effect (argv 0)]⟩ ∧
        (u.effect (argv 0)).is_usage = true) ∧
    (∀ r, argc ≠ 1 → option_loop (argv 0) opts OptState.init = .error r →
      main argc argv opts env = r ∧ (r = ⟨some 0, [.usage (argv 0)]⟩ ∨ r = ⟨some 1, []⟩)) ∧
    (argc ≠ 1 → (∀ o ∈ opts, o ≠ .h) → GetOpt.unknown ∈ opts →
      main argc argv opts env = ⟨some 1, []⟩) ∧
    (∀ pre post, argc ≠ 1 → opts = pre ++ .h :: post →
      (∀ o ∈ pre, o ≠ .h ∧ o ≠ .unknown) →
        main argc argv opts env = ⟨some 0, [.usage (argv 0)]⟩) ∧
    ((∀ o ∈ opts, o ≠ .h ∧ o ≠ .unknown) →
      ∃ st, option_loop (argv 0) opts OptState.init = .ok st) := by
  refine ⟨?_, ?_, ?_, ?_, ?_, ?_⟩
  · intro h1
    simp [main, h1]
  · intro st u h1 ho hr
    exact ⟨by simp [main, h1, ho, hr], (usage_effect_kind _ u).1⟩
  · intro r h1 ho
    exact ⟨by simp [main, h1, ho], option_loop_error _ _ _ r ho⟩
  · intro h1 hh hu
    simp [main, h1, option_loop_rejected (argv 0) opts OptState.init hh hu]
  · intro pre post h1 hopts hacc
    subst hopts
    simp [main, h1, option_loop_help (argv 0) post pre OptState.init hacc]
  · intro hacc
    exact option_loop_accepted (argv 0) opts OptState.init hacc

/-- Witness for C7 amended: `pelz -d` has no token and returns 1 after the
general usage block; `pelz keytable remove` returns 1 after the keytable
block; `pelz -d -x exit` has a rejected option and returns 1 with nothing
printed by the client. -/
theorem unresolved_prints_usage_witness :
    main 2 (argv_of ["pelz", "-d"]) [.d] env_up = ⟨some 1, [.usage (some "pelz")]⟩ ∧
    main 3 (argv_of ["pelz", "keytable", "remove"]) [] env_up = ⟨some 1, [.keytable_usage]⟩ ∧
    main 4 (argv_of ["pelz", "-d", "-x", "exit"]) [.d, .unknown] env_up = ⟨some 1, []⟩ :=
  ⟨((unresolved_prints_usage 2 (argv_of ["pelz", "-d"]) [.d] env_up).2.1
      ⟨1, false, false, false, none, 0⟩ .general (by decide) rfl rfl).1,
   ((unresolved_prints_usage 3 (argv_of ["pelz", "keytable", "remove"]) [] env_up).2.1
      OptState.init .keytable (by decide) rfl rfl).1,
   (unresolved_prints_usage 4 (argv_of ["pelz", "-d", "-x", "exit"]) [.d, .unknown]
      env_up).2.2.2.1 (by decide) (by decide) (by decide)⟩

/-- C8, the code at the failing input: for `pelz exit` with the service pipe
not writable, `msg_arg` returns 1 and `main` returns 0. More generally the run
of every opcode sent to the service returns 0 whatever the transport exchange
returned. -/
theorem transport_failure_returns_zero :
    (msg_arg env_down (fifo_name env_down) (strlen (fifo_name env_down)) 1 none 0).1 = 1 ∧
    resolve (classify (argv_of ["pelz", "exit"]) 0) OptState.init = .ok 1 ∧
    main 2 (argv_of ["pelz", "exit"]) [] env_down =
      ⟨some 0, [.mkfifo "/tmp/pelzInterface4242" MODE,
        .open_read_pipe "/tmp/pelzInterface4242",
        .write_to_pipe "/tmp/pelzService" "pelz 1 /tmp/pelzInterface4242 ",
        .remove_pipe "/tmp/pelzInterface4242"]⟩ ∧
    (∀ (argv : Nat → Option String) (st : OptState) (env : Env) (c : Nat),
      resolve (classify argv st.arg_index) st = .ok c → 1 ≤ c →
        (dispatch argv st env c).status = some 0) := by
  refine ⟨by decide, rfl, by decide, ?_⟩
  intro argv st env c h hc
  obtain ⟨mid, code, hd, _, h0⟩ := dispatch_shape argv st env c h
  rw [hd, h0 hc]

/-- C9: the reply pipe is released on every exit path. A run of the client that
reaches `mkfifo` creates the pipe named after the process first, calls
`remove_pipe` on that same name as its last action and exactly once, with no
other creation or removal between the two, and then returns, whichever opcode
was resolved and whatever the collaborators returned. -/
theorem reply_pipe_released (argc : Nat) (argv : Nat → Option String)
    (opts : List GetOpt) (env : Env)
    (h : ∃ name mode, Effect.mkfifo name mode ∈ (main argc argv opts env).trace) :
    ∃ mid code,
      main argc argv opts env =
        ⟨some code, .mkfifo (fifo_name env) MODE :: (mid ++ [.remove_pipe (fifo_name env)])⟩ ∧
      ∀ e ∈ mid, e.is_fifo_call = false := by
  obtain ⟨name, mode, he⟩ := h
  rcases main_cases argc argv opts env with
    ⟨_, hm⟩ | ⟨_, r, _, hm, hr | hr⟩ | ⟨_, st, u, _, _, hm⟩ | ⟨_, st, c, _, hr, hm⟩
  · rw [hm] at he; simp at he
  · rw [hm, hr] at he; simp at he
  · rw [hm, hr] at he; simp at he
  · rw [hm] at he
    cases u <;> simp [UsageKind.effect] at he
  · obtain ⟨mid, code, hd, hmid, _⟩ := dispatch_shape argv st env c hr
    exact ⟨mid, code, by rw [hm, hd], hmid⟩

/-- Witness for C9: `pelz seal /tmp/f` with a failing `seal`. -/
theorem reply_pipe_released_witness :
    ∃ mid code,
      main 3 (argv_of ["pelz", "seal", "/tmp/f"]) []
          ⟨"/tmp/pelzService", "/tmp/pelzInterface", 7, 0, 1, none, 3, 0, 0⟩ =
        ⟨some code, .mkfifo "/tmp/pelzInterface7" MODE ::
          (mid ++ [.remove_pipe "/tmp/pelzInterface7"])⟩ ∧
      ∀ e ∈ mid, e.is_fifo_call = false :=
  reply_pipe_released 3 (argv_of ["pelz", "seal", "/tmp/f"]) []
    ⟨"/tmp/pelzService", "/tmp/pelzInterface", 7, 0, 1, none, 3, 0, 0⟩
    ⟨"/tmp/pelzInterface7", MODE, by decide⟩

/-- Counterexample to C10: for `pelz exit` the client calls `msg_arg` with a
null argument, and the request line is `pelz 1 P` followed by a space; it does
not end with the name of the reply pipe. -/
theorem exit_line_has_trailing_space :
    request_of (argv_of ["pelz", "exit"]) 0 1 = .arg 1 none 0 ∧
    request_line "P" (request_of (argv_of ["pelz", "exit"]) 0 1) = some "pelz 1 P " ∧
    request_line "P" (request_of (argv_of ["pelz", "exit"]) 0 1) ≠
      some ("pelz " ++ toString 1 ++ " " ++ "P") :=
  ⟨rfl, by decide, by decide⟩

/-- C10, amended: with the lengths the client passes, `msg_arg` with an
argument `a` formats `pelz <c> <P> <a>`; `msg_list`, used for the two list
opcodes 4 and 7, formats `pelz <c> <P>`; and `msg_arg` with a null argument,
used for the opcodes 1, 3, 9 and 10, formats `pelz <c> <P>` followed by one
space: the argument is empty and the separator before it is still written. -/
theorem request_line_format (c : Nat) (P a : String) :
    request_line P (.arg c (some a) (strlen a)) =
      some ("pelz " ++ toString c ++ " " ++ P ++ " " ++ a) ∧
    request_line P (.list c) = some ("pelz " ++ toString c ++ " " ++ P) ∧
    request_line P (.arg c none 0) = some ("pelz " ++ toString c ++ " " ++ P ++ " ") ∧
    (∀ (argv : Nat → Option String) (k : Nat),
      request_of argv k 4 = .list 4 ∧ request_of argv k 7 = .list 7 ∧
      request_of argv k 1 = .arg 1 none 0 ∧ request_of argv k 3 = .arg 3 none 0 ∧
      request_of argv k 9 = .arg 9 none 0 ∧ request_of argv k 10 = .arg 10 none 0) ∧
    (∀ (argv : Nat → Option String) (k : Nat) (w : String),
      (argv (k + 3) = some w →
        request_of argv k 2 = .arg 2 (some w) (strlen w) ∧
        request_of argv k 8 = .arg 8 (some w) (strlen w)) ∧
      (argv (k + 4) = some w →
        request_of argv k 5 = .arg 5 (some w) (strlen w) ∧
        request_of argv k 6 = .arg 6 (some w) (strlen w))) := by
  refine ⟨?_, ?_, ?_, fun _ _ => ⟨rfl, rfl, rfl, rfl, rfl, rfl⟩, ?_⟩
  · simp only [request_line, msg_arg_fmt, fmt_s, str_take_self]
  · simp only [request_line, msg_list_fmt, fmt_s, str_take_self]
  · simp only [request_line, msg_arg_fmt, fmt_s, str_take_self]
    simp
  · intro argv k w
    constructor
    · intro hw
      simp only [request_of, hw, arg_request, and_self]
    · intro hw
      simp only [request_of, hw, arg_request, and_self]

/-! ## Lemmas on the decimal rendering of `%d` -/

theorem toString_data (n : Nat) : (toString n).data = Nat.toDigits 10 n := rfl

theorem digitChar_props (d : Nat) (hd : d < 10) :
    (Nat.digitChar d).toNat - 48 = d ∧ Nat.digitChar d ≠ ' ' ∧
      isdigit (Nat.digitChar d) = true := by
  interval_cases d <;> exact ⟨rfl, by decide, rfl⟩

theorem toDigitsCore_eq (fuel : Nat) :
    ∀ (n : Nat) (ds : List Char), 0 < n → n < fuel →
      Nat.toDigitsCore 10 fuel n ds = (Nat.digits 10 n).reverse.map Nat.digitChar ++ ds := by
  induction fuel with
  | zero => intro n ds _ hf; omega
  | succ fuel ih =>
    intro n ds hn hf
    rw [Nat.digits_def' (by decide) hn]
    simp only [Nat.toDigitsCore, List.reverse_cons, List.map_append, List.map_cons,
      List.map_nil, List.append_assoc, List.singleton_append]
    by_cases h0 : n / 10 = 0
    · simp [h0]
    · rw [if_neg h0]
      exact ih (n / 10) _ (Nat.pos_of_ne_zero h0) (by omega)

theorem toDigits_eq (n : Nat) (hn : 0 < n) :
    Nat.toDigits 10 n = (Nat.digits 10 n).reverse.map Nat.digitChar := by
  rw [Nat.toDigits, toDigitsCore_eq (n + 1) n [] hn (by omega), List.append_nil]

theorem digits_value_map (L : List Nat) (hL : ∀ d ∈ L, d < 10) :
    digits_value (L.reverse.map Nat.digitChar) = Nat.ofDigits 10 L := by
  induction L with
  | nil => rfl
  | cons d t ih =>
    have ht : ∀ x ∈ t, x < 10 := fun x hx => hL x (List.mem_cons_of_mem d hx)
    have h1 := ih ht
    unfold digits_value at h1 ⊢
    rw [List.reverse_cons, List.map_append, List.foldl_append, h1, Nat.ofDigits_cons]
    simp only [List.map_cons, List.map_nil, List.foldl_cons, List.foldl_nil]
    rw [(digitChar_props d (hL d (List.mem_cons_self d t))).1]
    omega

/-- Reading back the decimal rendering gives the number. -/
theorem digits_value_toString (n : Nat) : digits_value (toString n).data = n := by
  rw [toString_data]
  rcases Nat.eq_zero_or_pos n with h | h
  · subst h; rfl
  · rw [toDigits_eq n h,
      digits_value_map _ (fun d hd => Nat.digits_lt_base (by decide) hd), Nat.ofDigits_digits]

theorem toString_inj (n m : Nat) (h : toString n = toString m) : n = m := by
  have := congrArg (fun s : String => digits_value s.data) h
  simpa [digits_value_toString] using this

theorem toString_no_space (n : Nat) : ∀ ch ∈ (toString n).data, ch ≠ ' ' := by
  intro ch hch
  rw [toString_data] at hch
  rcases Nat.eq_zero_or_pos n with h | h
  · subst h
    have : ch = '0' := by simpa [Nat.toDigits, Nat.toDigitsCore] using hch
    subst this; decide
  · rw [toDigits_eq n h] at hch
    obtain ⟨d, hd, rfl⟩ := List.mem_map.mp hch
    exact (digitChar_props d (Nat.digits_lt_base (by decide) (List.mem_reverse.mp hd))).2.1

theorem toString_length_small (c : Nat) (hc : c ≤ 10) :
    (toString c).length = if c < 10 then 1 else 2 := by
  interval_cases c <;> rfl

theorem toString_length_large (c : Nat) (hc : 100 ≤ c) : 3 ≤ (toString c).length := by
  have hpos : 0 < c := by omega
  show 3 ≤ (toString c).data.length
  rw [toString_data, toDigits_eq c hpos, List.length_map, List.length_reverse]
  by_contra hlt
  have h1 : c < 10 ^ (Nat.digits 10 c).length := Nat.lt_base_pow_length_digits (by decide)
  have h2 : 10 ^ (Nat.digits 10 c).length ≤ 10 ^ 2 :=
    Nat.pow_le_pow_right (by decide) (by omega)
  omega

/-! ## Lemmas on request lines -/

theorem append_sep_inj (sep : Char) :
    ∀ (d1 d2 x y : List Char), (∀ c ∈ d1, c ≠ sep) → (∀ c ∈ d2, c ≠ sep) →
      d1 ++ sep :: x = d2 ++ sep :: y → d1 = d2 ∧ x = y := by
  intro d1
  induction d1 with
  | nil =>
    intro d2 x y _ h2 h
    cases d2 with
    | nil => simpa using h
    | cons b t =>
      simp only [List.nil_append, List.cons_append, List.cons.injEq] at h
      exact absurd h.1.symm (h2 b (List.mem_cons_self b t))
  | cons a t ih =>
    intro d2 x y h1 h2 h
    cases d2 with
    | nil =>
      simp only [List.nil_append, List.cons_append, List.cons.injEq] at h
      exact absurd h.1 (h1 a (List.mem_cons_self a t))
    | cons b u =>
      simp only [List.cons_append, List.cons.injEq] at h
      obtain ⟨hd, hx⟩ := ih u x y (fun c hc => h1 c (List.mem_cons_of_mem a hc))
        (fun c hc => h2 c (List.mem_cons_of_mem b hc)) h.2
      exact ⟨by rw [h.1, hd], hx⟩

/-- Two request lines that agree have the same opcode field and the same
remainder after it. -/
theorem line_head_inj (c1 c2 : Nat) (x y : String)
    (h : "pelz " ++ (toString c1 ++ (" " ++ x)) = "pelz " ++ (toString c2 ++ (" " ++ y))) :
    c1 = c2 ∧ x = y := by
  have hd := congrArg String.data h
  simp only [String.data_append] at hd
  have hd2 := List.append_cancel_left hd
  simp only [List.singleton_append] at hd2
  obtain ⟨h1, h2⟩ := append_sep_inj ' ' _ _ _ _ (toString_no_space c1) (toString_no_space c2) hd2
  exact ⟨toString_inj c1 c2 (String.ext h1), String.ext h2⟩

theorem string_append_cancel_left (p x y : String) (h : p ++ x = p ++ y) : x = y := by
  have hd := congrArg String.data h
  simp only [String.data_append] at hd
  exact String.ext (List.append_cancel_left hd)

/-- The request of a resolved opcode sent to the service, by opcode: a list
request for 4 and 7, a null argument for 1, 3, 9 and 10, a word with its length
for 2, 5, 6 and 8. -/
theorem resolved_request_form (argv : Nat → Option String) (st : OptState) (c : Nat)
    (h : resolve (classify argv st.arg_index) st = .ok c) (hc : 1 ≤ c) :
    ((c = 4 ∨ c = 7) ∧ request_of argv st.arg_index c = .list c) ∨
    ((c = 1 ∨ c = 3 ∨ c = 9 ∨ c = 10) ∧ request_of argv st.arg_index c = .arg c none 0) ∨
    ((c = 2 ∨ c = 5 ∨ c = 6 ∨ c = 8) ∧
      ∃ w, request_of argv st.arg_index c = .arg c (some w) (strlen w)) := by
  obtain ⟨_, t2, t3⟩ := resolve_ok_tokens _ st c h
  have hle : c ≤ 10 := by
    rcases resolve_ok_family _ st c h with h1 | h1 | h1 | h1 <;> omega
  have e3 : st.arg_index + 3 = st.arg_index + 1 + 2 := by omega
  have e4 : st.arg_index + 4 = st.arg_index + 1 + 3 := by omega
  interval_cases c
  · exact Or.inr (Or.inl ⟨by decide, rfl⟩)
  · obtain ⟨w, hw⟩ := classify_other argv st.arg_index 2 (by decide) (t2 (Or.inl rfl))
    exact Or.inr (Or.inr ⟨by decide, w, by simp only [request_of]; rw [e3, hw]; rfl⟩)
  · exact Or.inr (Or.inl ⟨by decide, rfl⟩)
  · exact Or.inl ⟨by decide, rfl⟩
  · obtain ⟨w, hw⟩ := classify_other argv st.arg_index 3 (by decide) (t3 (Or.inl rfl))
    exact Or.inr (Or.inr ⟨by decide, w, by simp only [request_of]; rw [e4, hw]; rfl⟩)
  · obtain ⟨w, hw⟩ := classify_other argv st.arg_index 3 (by decide) (t3 (Or.inr rfl))
    exact Or.inr (Or.inr ⟨by decide, w, by simp only [request_of]; rw [e4, hw]; rfl⟩)
  · exact Or.inl ⟨by decide, rfl⟩
  · obtain ⟨w, hw⟩ := classify_other argv st.arg_index 2 (by decide) (t2 (Or.inr rfl))
    exact Or.inr (Or.inr ⟨by decide, w, by simp only [request_of]; rw [e3, hw]; rfl⟩)
  · exact Or.inr (Or.inl ⟨by decide, rfl⟩)
  · exact Or.inr (Or.inl ⟨by decide, rfl⟩)

/-! ## The request line determines the request -/

/-- C11: round trip, over the formatter of the client. For one reply pipe name
`P` (with or without a space in it), when two resolved opcodes sent to the
service, each with the argument the client passes, are formatted (`msg_list`
for 4 and 7, `msg_arg` for the others) into the same request line, the two
opcodes are equal and the two requests, argument included, are equal. -/
theorem request_line_injective (P : String) (argv1 argv2 : Nat → Option String)
    (st1 st2 : OptState) (c1 c2 : Nat)
    (h1 : resolve (classify argv1 st1.arg_index) st1 = .ok c1)
    (h2 : resolve (classify argv2 st2.arg_index) st2 = .ok c2)
    (hs1 : 1 ≤ c1) (hs2 : 1 ≤ c2)
    (hl : request_line P (request_of argv1 st1.arg_index c1) =
      request_line P (request_of argv2 st2.arg_index c2)) :
    c1 = c2 ∧ request_of argv1 st1.arg_index c1 = request_of argv2 st2.arg_index c2 := by
  rcases resolved_request_form argv1 st1 c1 h1 hs1 with
    ⟨m1, r1⟩ | ⟨m1, r1⟩ | ⟨m1, w1, r1⟩ <;>
  rcases resolved_request_form argv2 st2 c2 h2 hs2 with
    ⟨m2, r2⟩ | ⟨m2, r2⟩ | ⟨m2, w2, r2⟩ <;>
  rw [r1, r2] at hl ⊢ <;>
  simp only [request_line, msg_arg_fmt, msg_list_fmt, fmt_s, str_take_self,
    String.append_assoc, Option.some.injEq, Nat.not_succ_le_zero, if_false] at hl <;>
  obtain ⟨hc, hx⟩ := line_head_inj c1 c2 _ _ hl
  · exact ⟨hc, by rw [hc]⟩
  · omega
  · omega
  · omega
  · exact ⟨hc, by rw [hc]⟩
  · omega
  · omega
  · omega
  · have hw := string_append_cancel_left " " _ _ (string_append_cancel_left P _ _ hx)
    exact ⟨hc, by rw [hc, hw]⟩

/-- Witness for C11: `pelz keytable list` against itself. -/
theorem request_line_injective_witness :
    (4 : Nat) = 4 ∧
      request_of (argv_of ["pelz", "keytable", "list"]) OptState.init.arg_index 4 =
        request_of (argv_of ["pelz", "keytable", "list"]) OptState.init.arg_index 4 :=
  request_line_injective "/tmp/pelzInterface7" (argv_of ["pelz", "keytable", "list"])
    (argv_of ["pelz", "keytable", "list"]) OptState.init OptState.init 4 4 rfl rfl
    (by decide) (by decide) rfl

/-! ## The service: start-up, serving, shutdown -/

theorem service_option_loop_error (prog : Option String) (opts : List Service.GetOpt)
    (m : Int) (r : Service.Run) (h : Service.option_loop prog opts m = .error r) :
    r = ⟨0, [.usage prog]⟩ ∨ r = ⟨1, []⟩ := by
  induction opts generalizing m with
  | nil => simp [Service.option_loop] at h
  | cons o os ih =>
    simp only [Service.option_loop] at h
    cases hs : Service.option_step prog m o with
    | ok m1 => rw [hs] at h; exact ih m1 h
    | error r1 =>
      rw [hs] at h
      have hr : r1 = r := by injection h
      subst hr
      cases o with
      | h => simp [Service.option_step] at hs; exact Or.inl hs.symm
      | m optarg =>
        cases optarg with
        | none => simp [Service.option_step] at hs; exact Or.inr hs.symm
        | some w =>
          simp only [Service.option_step] at hs
          split_ifs at hs
          injection hs with hs
          exact Or.inr hs.symm
      | v => simp [Service.option_step] at hs
      | unknown => simp [Service.option_step] at hs; exact Or.inr hs.symm

/-- C12: start-up rollback. When the initialisation of the table fails
(`ret` is not 0), the run is enclave creation, table initialisation, enclave
destruction, and 1 is returned: no private key is asked for, the serving loop is
not entered. When the table is initialised and the private key is refused, the
run is enclave creation, table initialisation, key initialisation, then table
cleanup followed by enclave destruction, and 1 is returned. With the enclave
created, the releases are those of the resources held, in reverse order of
acquisition, once each. -/
theorem startup_rollback (max_requests : Int) (env : Service.Env) :
    (env.init_ret ≠ 0 →
      Service.lifecycle max_requests env =
        ⟨1, [.sgx_create_enclave, .kmyth_unsealed_data_table_init, .sgx_destroy_enclave]⟩) ∧
    (env.init_ret = 0 → env.pkey_init_ok = false →
      Service.lifecycle max_requests env =
        ⟨1, [.sgx_create_enclave, .kmyth_unsealed_data_table_init, .private_pkey_init,
          .kmyth_unsealed_data_table_cleanup, .sgx_destroy_enclave]⟩) ∧
    (∀ (argc optind : Nat) (prog : Option String) (opts : List Service.GetOpt),
      Service.option_loop prog opts 100 = .ok max_requests → ¬ optind < argc →
        Service.main argc optind prog opts env = Service.lifecycle max_requests env) := by
  refine ⟨?_, ?_, ?_⟩
  · intro h
    simp [Service.lifecycle, h]
  · intro h1 h2
    simp [Service.lifecycle, h1, h2]
  · intro argc optind prog opts ho hi
    simp [Service.main, ho, hi]

/-- Witness for C12: the private key is refused after the enclave and the
table were acquired. -/
theorem startup_rollback_witness :
    Service.main 1 1 (some "pelz-service") [] ⟨true, 0, false, true, 0, true, true, true⟩ =
      ⟨1, [.sgx_create_enclave, .kmyth_unsealed_data_table_init, .private_pkey_init,
        .kmyth_unsealed_data_table_cleanup, .sgx_destroy_enclave]⟩ ∧
    Service.main 1 1 (some "pelz-service") [] ⟨true, 5, true, true, 0, true, true, true⟩ =
      ⟨1, [.sgx_create_enclave, .kmyth_unsealed_data_table_init, .sgx_destroy_enclave]⟩ :=
  ⟨((startup_rollback 100 ⟨true, 0, false, true, 0, true, true, true⟩).2.2 1 1
      (some "pelz-service") [] rfl (by decide)).trans
      ((startup_rollback 100 ⟨true, 0, false, true, 0, true, true, true⟩).2.1 rfl rfl),
   ((startup_rollback 100 ⟨true, 5, true, true, 0, true, true, true⟩).2.2 1 1
      (some "pelz-service") [] rfl (by decide)).trans
      ((startup_rollback 100 ⟨true, 5, true, true, 0, true, true, true⟩).1 (by decide))⟩

/-- C13, the code when the enclave cannot be created: `main` does not look at
what `sgx_create_enclave` returns. Whatever it returns, the table
initialisation is the next call; and when the two variables read afterwards
hold 0 and `OK`, the private key is asked for, the serving loop is entered and
0 is returned. -/
theorem enclave_failure_not_checked :
    (∀ (max_requests : Int) (env : Service.Env), env.create_ok = false →
      ∃ rest, (Service.lifecycle max_requests env).trace =
        .sgx_create_enclave :: .kmyth_unsealed_data_table_init :: rest) ∧
    Service.env_no_enclave.create_ok = false ∧
    Service.main 1 1 (some "pelz-service") [] Service.env_no_enclave =
      ⟨0, [.sgx_create_enclave, .kmyth_unsealed_data_table_init, .private_pkey_init,
        .pelz_service 100,
        .private_pkey_free, .kmyth_unsealed_data_table_cleanup, .table_destroy .SERVER,
        .table_destroy .KEY, .sgx_destroy_enclave]⟩ := by
  refine ⟨?_, rfl, by decide⟩
  intro m env _
  unfold Service.lifecycle
  split_ifs <;> exact ⟨_, rfl⟩

/-- C14: shutdown. A run of the service that enters the serving loop goes on,
once the loop returns, with exactly private key release, table cleanup,
destruction of the server table, destruction of the key table and destruction
of the enclave, in this order and once each, whatever each of these calls
answers, and returns 0. -/
theorem shutdown_teardown (argc optind : Nat) (prog : Option String)
    (opts : List Service.GetOpt) (env : Service.Env) (m : Int)
    (h : Service.Effect.pelz_service m ∈ (Service.main argc optind prog opts env).trace) :
    Service.main argc optind prog opts env =
      ⟨0, [.sgx_create_enclave, .kmyth_unsealed_data_table_init, .private_pkey_init,
        .pelz_service m] ++
        [.private_pkey_free, .kmyth_unsealed_data_table_cleanup, .table_destroy .SERVER,
        .table_destroy .KEY, .sgx_destroy_enclave]⟩ := by
  unfold Service.main at h ⊢
  cases ho : Service.option_loop prog opts 100 with
  | error r =>
    rw [ho] at h
    rcases service_option_loop_error prog opts 100 r ho with hr | hr <;>
      (subst hr; simp at h)
  | ok mr =>
    rw [ho] at h
    simp only at h ⊢
    by_cases hi : optind < argc
    · simp [hi] at h
    · simp only [hi, if_false] at h ⊢
      unfold Service.lifecycle at h ⊢
      split_ifs at h ⊢
      · simp at h
      · simp at h
      · simp at h
        subst h
        rfl

/-- Witness for C14: a run in which every release fails. -/
theorem shutdown_teardown_witness :
    Service.main 1 1 (some "pelz-service") [] ⟨true, 0, true, false, 7, false, false, false⟩ =
      ⟨0, [.sgx_create_enclave, .kmyth_unsealed_data_table_init, .private_pkey_init,
        .pelz_service 100] ++
        [.private_pkey_free, .kmyth_unsealed_data_table_cleanup, .table_destroy .SERVER,
        .table_destroy .KEY, .sgx_destroy_enclave]⟩ :=
  shutdown_teardown 1 1 (some "pelz-service") []
    ⟨true, 0, true, false, 7, false, false, false⟩ 100 (by decide)

/-- C15, the code at the failing input: `-m 4294967296` passes the test
`atol(optarg) > 0` as a `long` and is narrowed to the `int` 0, which is handed
to the serving loop; `-m 2147483648` hands over -2147483648. Without `-m` the
value is 100, `-m 250` gives 250, and `-m 0` and `-m abc` end the run
with 1 before anything is started. -/
theorem max_requests_narrowed :
    (atol "4294967296" = 4294967296 ∧
      Service.main 3 3 (some "pelz-service") [.m (some "4294967296")] Service.env_ok =
        Service.lifecycle 0 Service.env_ok ∧
      Service.Effect.pelz_service 0 ∈
        (Service.main 3 3 (some "pelz-service") [.m (some "4294967296")]
          Service.env_ok).trace) ∧
    Service.Effect.pelz_service (-2147483648) ∈
      (Service.main 3 3 (some "pelz-service") [.m (some "2147483648")] Service.env_ok).trace ∧
    Service.Effect.pelz_service 100 ∈
      (Service.main 1 1 (some "pelz-service") [] Service.env_ok).trace ∧
    Service.Effect.pelz_service 250 ∈
      (Service.main 3 3 (some "pelz-service") [.m (some "250")] Service.env_ok).trace ∧
    Service.main 3 3 (some "pelz-service") [.m (some "0")] Service.env_ok = ⟨1, []⟩ ∧
    Service.main 3 3 (some "pelz-service") [.m (some "abc")] Service.env_ok = ⟨1, []⟩ := by
  refine ⟨⟨by decide, by decide, by decide⟩, by decide, by decide, by decide, by decide,
    by decide⟩

/-! ## Shapes of the resolved command lines -/

/-- The token array the loop leaves has five entries and is `EMPTY` from its
first `EMPTY` entry on. -/
theorem classify_form (argv : Nat → Option String) (k : Nat) :
    ∃ t0 t1 t2 t3 t4, classify argv k = [t0, t1, t2, t3, t4] ∧
      (t0 = .EMPTY → t1 = .EMPTY) ∧ (t1 = .EMPTY → t2 = .EMPTY) ∧
      (t2 = .EMPTY → t3 = .EMPTY) ∧ (t3 = .EMPTY → t4 = .EMPTY) := by
  rw [classify_eq]
  split_ifs with h0 h1 h2 h3
  · exact ⟨_, _, _, _, _, rfl, fun _ => rfl, fun _ => rfl, fun _ => rfl, fun _ => rfl⟩
  · exact ⟨_, _, _, _, _, rfl, fun _ => rfl, fun _ => rfl, fun _ => rfl, fun _ => rfl⟩
  · exact ⟨_, _, _, _, _, rfl, fun h => absurd h h0, fun _ => rfl, fun _ => rfl, fun _ => rfl⟩
  · exact ⟨_, _, _, _, _, rfl, fun h => absurd h h0, fun h => absurd h h1, fun _ => rfl,
      fun _ => rfl⟩
  · exact ⟨_, _, _, _, _, rfl, fun h => absurd h h0, fun h => absurd h h1,
      fun h => absurd h h2, fun h => absurd h h3⟩

theorem tok_five (t0 t1 t2 t3 t4 : CmdArgValue) :
    tok [t0, t1, t2, t3, t4] 0 = t0 ∧ tok [t0, t1, t2, t3, t4] 1 = t1 ∧
    tok [t0, t1, t2, t3, t4] 2 = t2 ∧ tok [t0, t1, t2, t3, t4] 3 = t3 ∧
    tok [t0, t1, t2, t3, t4] 4 = t4 :=
  ⟨rfl, rfl, rfl, rfl, rfl⟩

/-- A resolved token array of the loop, for an opcode other than the two
remove-all opcodes, is the shape of the opcode. -/
theorem resolved_shape (argv : Nat → Option String) (k : Nat) (st : OptState) (c : Nat)
    (h : resolve (classify argv k) st = .ok c) (h3 : c ≠ 3) (h9 : c ≠ 9) :
    classify argv k = shape c := by
  obtain ⟨t0, t1, t2, t3, t4, hcl, e0, e1, e2, e3⟩ := classify_form argv k
  rw [hcl] at h ⊢
  obtain ⟨k0, k1, k2, k3, k4⟩ := tok_five t0 t1 t2 t3 t4
  rcases resolve_ok_family _ st c h with hf | hf | hf | hf
  · rw [resolve_seal _ _ hf.1] at h
    rw [k0] at hf
    rw [k1, k2] at h
    split_ifs at h with hx
    obtain ⟨hf0, rfl⟩ := hf
    obtain ⟨hx1, hx2⟩ := hx
    subst hf0 hx1 hx2
    rw [e2 rfl, e3 (e2 rfl)]
    rfl
  · rw [resolve_exit _ _ hf.1 hf.2.1] at h
    rw [k0] at hf
    rw [k1] at h
    split_ifs at h with hx
    obtain ⟨hf0, _, rfl⟩ := hf
    subst hf0 hx
    rw [e1 rfl, e2 (e1 rfl), e3 (e2 (e1 rfl))]
    rfl
  · rw [resolve_keytable _ _ hf.1 hf.2.1] at h
    rw [k0] at hf
    rw [k1, k2, k3] at h
    obtain ⟨hf0, _, _⟩ := hf
    subst hf0
    split_ifs at h with hx1 hx2 hx3 hx4
    · injection h with h; omega
    · injection h with h
      obtain ⟨hx31, hx32⟩ := hx3
      subst h hx1 hx31 hx32
      rw [e3 rfl]
      rfl
    · injection h with h
      obtain ⟨hx41, hx42⟩ := hx4
      subst h hx41 hx42
      rw [e2 rfl, e3 (e2 rfl)]
      rfl
  · rw [resolve_pki _ _ hf.1 hf.2.1] at h
    rw [k0] at hf
    rw [k1, k2, k3, k4] at h
    obtain ⟨hf0, _, _⟩ := hf
    subst hf0
    split_ifs at h with hx1 hx2 hx3 hx4 hx5 hx6 hx7 hx8
    · injection h with h
      obtain ⟨a, b, d⟩ := hx2
      subst h hx1 a b d
      rfl
    · injection h with h
      obtain ⟨a, b, d⟩ := hx3
      subst h hx1 a b d
      rfl
    · injection h with h
      obtain ⟨a, b, d⟩ := hx4
      subst h a b d
      rw [e3 rfl]
      rfl
    · injection h with h; omega
    · injection h with h
      obtain ⟨a, b⟩ := hx7
      subst h hx5 a b
      rw [e3 rfl]
      rfl
    · injection h with h
      obtain ⟨a, b⟩ := hx8
      subst h hx5 a b
      rw [e3 rfl]
      rfl

/-- Counterexample to C16: with the all flag, `pelz -a keytable remove` and
`pelz -a keytable remove k1` have different token arrays and both resolve to
keytable-remove-all (3). -/
theorem remove_all_has_many_shapes :
    classify (argv_of ["pelz", "-a", "keytable", "remove"]) 1 =
      [.KEYTABLE, .REMOVE, .EMPTY, .EMPTY, .EMPTY] ∧
    classify (argv_of ["pelz", "-a", "keytable", "remove", "k1"]) 1 =
      [.KEYTABLE, .REMOVE, .OTHER, .EMPTY, .EMPTY] ∧
    resolve (classify (argv_of ["pelz", "-a", "keytable", "remove"]) 1)
      ⟨1, true, false, false, none, 0⟩ = .ok 3 ∧
    resolve (classify (argv_of ["pelz", "-a", "keytable", "remove", "k1"]) 1)
      ⟨1, true, false, false, none, 0⟩ = .ok 3 :=
  ⟨by decide, by decide, rfl, rfl⟩

/-- C16, amended: each of the nine opcodes other than keytable-remove-all (3)
and pki-remove-all-certs (9) is resolved from exactly one token array of the
classification loop, its shape; the shapes of the eleven opcodes resolve each to
its opcode (with the all flag for 3 and 9 only) and differ from each other;
opcode 3 is resolved from every array that starts keytable remove, and opcode 9
from every array that starts pki remove, when the all flag is set and the
output option is not; and no token array with flags resolves to two
opcodes. -/
theorem shape_unique :
    (∀ (argv : Nat → Option String) (k : Nat) (st : OptState) (c : Nat),
      resolve (classify argv k) st = .ok c → c ≠ 3 → c ≠ 9 → classify argv k = shape c) ∧
    (∀ c, c ≤ 10 →
      resolve (shape c) ⟨0, decide (c = 3 ∨ c = 9), false, false, none, 0⟩ = .ok c) ∧
    (∀ c1 c2, c1 ≤ 10 → c2 ≤ 10 → shape c1 = shape c2 → c1 = c2) ∧
    (∀ (cmd_arg : List CmdArgValue) (st : OptState),
      (resolve cmd_arg st = .ok 3 ↔
        tok cmd_arg 0 = .KEYTABLE ∧ tok cmd_arg 1 = .REMOVE ∧ st.all = true ∧
          st.out = false) ∧
      (resolve cmd_arg st = .ok 9 ↔
        tok cmd_arg 0 = .PKI ∧ tok cmd_arg 1 = .REMOVE ∧ st.all = true ∧ st.out = false)) ∧
    (∀ (cmd_arg : List CmdArgValue) (st : OptState) (c1 c2 : Nat),
      resolve cmd_arg st = .ok c1 → resolve cmd_arg st = .ok c2 → c1 = c2) := by
  refine ⟨resolved_shape, ?_, ?_, ?_, ?_⟩
  · intro c hc
    interval_cases c <;> rfl
  · intro c1 c2 h1 h2 h
    interval_cases c1 <;> interval_cases c2 <;> first | rfl | (exact absurd h (by decide))
  · intro cmd_arg st
    constructor
    · constructor
      · intro h
        rcases resolve_ok_family cmd_arg st 3 h with hf | hf | hf | hf
        · omega
        · omega
        · rw [resolve_keytable _ _ hf.1 hf.2.1] at h
          split_ifs at h with hx1 hx2 hx3 hx4
          · exact ⟨hf.1, hx1, hx2, hf.2.1⟩
          · injection h with h; omega
          · injection h with h; omega
        · omega
      · rintro ⟨h0, h1, ha, ho⟩
        rw [resolve_keytable _ _ h0 ho, if_pos h1, if_pos ha]
    · constructor
      · intro h
        rcases resolve_ok_family cmd_arg st 9 h with hf | hf | hf | hf
        · omega
        · omega
        · omega
        · rw [resolve_pki _ _ hf.1 hf.2.1] at h
          split_ifs at h with hx1 hx2 hx3 hx4 hx5 hx6 hx7 hx8 <;>
            first
              | exact ⟨hf.1, hx5, hx6, hf.2.1⟩
              | (injection h with h; omega)
      · rintro ⟨h0, h1, ha, ho⟩
        have hl : tok cmd_arg 1 ≠ .LOAD := by rw [h1]; decide
        have hc : ¬ (tok cmd_arg 1 = .CERT ∧ tok cmd_arg 2 = .LIST ∧ tok cmd_arg 3 = .EMPTY) := by
          rw [h1]; rintro ⟨hx, _⟩; exact absurd hx (by decide)
        rw [resolve_pki _ _ h0 ho, if_neg hl, if_neg hc, if_pos h1, if_pos ha]
  · intro cmd_arg st c1 c2 h1 h2
    rw [h1] at h2
    injection h2

/-! ## The reply pipe name, the exchange, the buffers, the option counter -/

/-- C17: the name of the reply pipe is the fixed text `PELZINTERFACE` followed
by the decimal rendering of the process identifier, and two clients with
different process identifiers (and the same `PELZINTERFACE`) get different
names. -/
theorem fifo_name_injective :
    (∀ env : Env, fifo_name env = env.PELZINTERFACE ++ toString env.pid) ∧
    (∀ env1 env2 : Env, env1.PELZINTERFACE = env2.PELZINTERFACE → env1.pid ≠ env2.pid →
      fifo_name env1 ≠ fifo_name env2) := by
  refine ⟨fun _ => rfl, ?_⟩
  intro env1 env2 hP hpid hname
  unfold fifo_name at hname
  rw [hP] at hname
  exact hpid (toString_inj _ _ (string_append_cancel_left _ _ _ hname))

/-- C18: in `msg_cmd` the reply pipe is opened for reading before anything
else. When that fails (-1) nothing is written and 1 is returned. Otherwise the
request is written to the service pipe; when the write fails its code is
returned and no reply is read; when it succeeds the reply is read from the
descriptor opened first, and the result of the read is returned. -/
theorem reader_before_writer (env : Env) (pipe msg : String) :
    (∃ rest, (msg_cmd env pipe msg).2 = .open_read_pipe pipe :: rest) ∧
    (env.open_read_pipe_ret = -1 →
      msg_cmd env pipe msg = (1, [.open_read_pipe pipe, .perror_open])) ∧
    (env.open_read_pipe_ret ≠ -1 → env.write_to_pipe_ret ≠ 0 →
      msg_cmd env pipe msg =
        (env.write_to_pipe_ret, [.open_read_pipe pipe, .write_to_pipe env.PELZSERVICE msg])) ∧
    (env.open_read_pipe_ret ≠ -1 → env.write_to_pipe_ret = 0 →
      msg_cmd env pipe msg =
        (env.read_listener_ret,
          [.open_read_pipe pipe, .write_to_pipe env.PELZSERVICE msg,
            .read_listener env.open_read_pipe_ret])) := by
  refine ⟨?_, ?_, ?_, ?_⟩
  · unfold msg_cmd
    simp only
    split_ifs <;> exact ⟨_, rfl⟩
  · intro h
    simp [msg_cmd, h]
  · intro h1 h2
    simp [msg_cmd, h1, h2]
  · intro h1 h2
    simp [msg_cmd, h1, h2]

theorem fmt_s_length_le (prec : Nat) (x : Option String) : (fmt_s prec x).length ≤ prec := by
  cases x with
  | some s =>
    simp only [fmt_s, str_take, String.length, List.length_take]
    exact Nat.min_le_left _ _
  | none =>
    simp only [fmt_s]
    split_ifs with h
    · simp only [str_take, String.length, List.length_take]
      exact Nat.min_le_left _ _
    · exact Nat.zero_le _

theorem msg_arg_fmt_length (pipe : String) (pipe_len c : Nat) (arg : Option String)
    (arg_len : Nat) :
    (msg_arg_fmt pipe pipe_len c arg arg_len).length =
      5 + (toString c).length + 1 + (fmt_s pipe_len (some pipe)).length + 1 +
        (fmt_s arg_len arg).length := by
  simp only [msg_arg_fmt, String.length_append]
  rfl

theorem msg_list_fmt_length (pipe : String) (pipe_len c : Nat) :
    (msg_list_fmt pipe pipe_len c).length =
      5 + (toString c).length + 1 + (fmt_s pipe_len (some pipe)).length := by
  simp only [msg_list_fmt, String.length_append]
  rfl

/-- C19: for an opcode of at most 10 the line `msg_arg` formats, with its NUL,
fits the `10 + pipe_len + arg_len` bytes allocated, and the line `msg_list`
formats fits its `10 + pipe_len` bytes, whatever the pipe name, the argument
(null included) and the two lengths. With a pipe name of length `pipe_len` and
an argument of length `arg_len`, the buffer of `msg_arg` is filled exactly at
opcode 10, has room left below 10, and is too small by at least one byte for an
opcode of three or more digits. -/
theorem request_buffer_bound (pipe : String) (pipe_len : Nat) (arg : Option String)
    (arg_len c : Nat) :
    (c ≤ 10 →
      bytes_needed (msg_arg_fmt pipe pipe_len c arg arg_len) ≤ msg_arg_size pipe_len arg_len ∧
      bytes_needed (msg_list_fmt pipe pipe_len c) ≤ msg_list_size pipe_len) ∧
    (∀ a : String,
      bytes_needed (msg_arg_fmt pipe (strlen pipe) 10 (some a) (strlen a)) =
        msg_arg_size (strlen pipe) (strlen a)) ∧
    (∀ a : String, c < 10 →
      bytes_needed (msg_arg_fmt pipe (strlen pipe) c (some a) (strlen a)) <
        msg_arg_size (strlen pipe) (strlen a)) ∧
    (∀ a : String, 100 ≤ c →
      msg_arg_size (strlen pipe) (strlen a) <
        bytes_needed (msg_arg_fmt pipe (strlen pipe) c (some a) (strlen a))) := by
  have hexact : ∀ (n : Nat) (a : String),
      bytes_needed (msg_arg_fmt pipe (strlen pipe) n (some a) (strlen a)) =
        8 + (toString n).length + strlen pipe + strlen a := by
    intro n a
    simp only [bytes_needed, strlen, msg_arg_fmt_length, fmt_s]
    have h1 : (str_take pipe pipe.length).length = pipe.length :=
      congrArg String.length (str_take_self pipe)
    have h2 : (str_take a a.length).length = a.length :=
      congrArg String.length (str_take_self a)
    rw [h1, h2]
    omega
  refine ⟨?_, ?_, ?_, ?_⟩
  · intro hc
    have hd : (toString c).length ≤ 2 := by
      rw [toString_length_small c hc]; split_ifs <;> omega
    have hp := fmt_s_length_le pipe_len (some pipe)
    have ha := fmt_s_length_le arg_len arg
    constructor
    · simp only [bytes_needed, strlen, msg_arg_fmt_length, msg_arg_size]
      omega
    · simp only [bytes_needed, strlen, msg_list_fmt_length, msg_list_size]
      omega
  · intro a
    rw [hexact 10 a, toString_length_small 10 (le_refl 10)]
    simp only [msg_arg_size]
    simp
  · intro a hc
    rw [hexact c a, toString_length_small c (by omega), if_pos hc]
    simp only [msg_arg_size]
    omega
  · intro a hc
    rw [hexact c a]
    have := toString_length_large c hc
    simp only [msg_arg_size]
    omega

/-- C20, the code at the failing inputs. For `pelz -dt` the option scan returns
`d` and `t` from one word, the loop counts 2, and `arg_index + 1` is 3 with
`argc` 2: the word read as the first token lies past the end of `argv`. For
`pelz -oX` and `pelz --output=X` one word is used and 2 is counted. For
`pelz -at keytable remove` the first token is read from `remove`, and the
client prints the usage block and returns 1 where `pelz -a -t keytable remove`
resolves to opcode 3. Where every option is a word of its own and the output
path a separate word (`pelz -o X -t seal f`) the count is the number of words
used. -/
theorem arg_index_overcounts :
    (getopt_scan ["-dt"] false = ([.d, .t], 1) ∧
      option_loop (some "pelz") (getopt_scan ["-dt"] false).1 OptState.init =
        .ok ⟨2, false, true, false, none, 0⟩ ∧
      (2 : Nat) + 1 > 2) ∧
    (getopt_scan ["-oX"] false = ([.o "X"], 1) ∧
      getopt_scan ["--output=X"] false = ([.o "X"], 1) ∧
      option_loop (some "pelz") [.o "X"] OptState.init =
        .ok ⟨2, false, false, true, some "X", 2⟩) ∧
    (getopt_scan ["-at", "keytable", "remove"] false = ([.a, .t], 1) ∧
      classify (argv_of ["pelz", "-at", "keytable", "remove"]) 2 =
        [.REMOVE, .EMPTY, .EMPTY, .EMPTY, .EMPTY] ∧
      main 4 (argv_of ["pelz", "-at", "keytable", "remove"]) [.a, .t] env_up =
        ⟨some 1, [.usage (some "pelz")]⟩ ∧
      getopt_scan ["-a", "-t", "keytable", "remove"] false = ([.a, .t], 2) ∧
      resolve (classify (argv_of ["pelz", "-a", "-t", "keytable", "remove"]) 2)
        ⟨2, true, true, false, none, 0⟩ = .ok 3) ∧
    (getopt_scan ["-o", "X", "-t", "seal", "f"] false = ([.o "X", .t], 3) ∧
      option_loop (some "pelz") [.o "X", .t] OptState.init =
        .ok ⟨3, false, true, true, some "X", 2⟩) := by
  refine ⟨⟨by decide, rfl, by decide⟩, ⟨by decide, by decide, rfl⟩,
    ⟨by decide, by decide, by decide, by decide, rfl⟩, ⟨by decide, rfl⟩⟩

end Pelz
